import Mathlib

/-!
Verification of the compiler front end (lexer, intern pool, syntactic parser,
semantic import resolution) against its natural-language specification.

The Rust sources are shallowly embedded: structs become structures, enums
become inductives, `&mut self` methods become state-passing functions, and
fallible functions return `Except`.  Machine integers (`u64`, `i64`) are
modelled as `Nat`/`Int` with explicit `% 2 ^ 64` arithmetic where wrap-around
matters; `debug_assert!` preconditions become theorem hypotheses.  Hash maps
are modelled as association lists whose observable behaviour (lookup after
insert) matches the map.  Loops that the source cannot leave without either
erroring or consuming input are given a fuel parameter or a termination
measure; fuel is always ample in the concrete evaluations below.
-/

namespace Compiler

/-! ## Spans (src/span.rs, src/token.rs) -/

/-- `Span` from src/span.rs: interned file path plus a character range.
`PathId` is modelled as `Nat`. -/
structure Span where
  path : Nat
  line : Nat
  column : Nat
  index : Nat
  size : Nat
deriving DecidableEq

/-- `Span::path_only` from src/span.rs. -/
def Span.pathOnly (pathId : Nat) : Span :=
  { path := pathId, line := 0, column := 0, index := 0, size := 0 }

/-- `impl Sub for Span` (src/span.rs lines 36-56): the span-merge operation,
written `self - other`.  The two `debug_assert!`s
(`self.index + self.size >= other.index` and `self.path == other.path`) are
stated as hypotheses of the theorems that use this; under the first one the
truncated `Nat` subtraction below agrees with the `usize` subtraction. -/
def Span.sub (self other : Span) : Span :=
  { path := self.path
    line := self.line
    column := self.column
    index := self.index
    size := self.index + self.size - other.index }

/-- `TokenSpan` from src/token.rs: a span without the path. -/
structure TokenSpan where
  line : Nat
  column : Nat
  index : Nat
  size : Nat
deriving DecidableEq

/-- `impl Sub for TokenSpan` (src/token.rs lines 104-116), same formula as
`Span.sub`. -/
def TokenSpan.sub (self other : TokenSpan) : TokenSpan :=
  { line := self.line
    column := self.column
    index := self.index
    size := self.index + self.size - other.index }

/-- Modelled from the spec: `covers` as used by the span-merge property
("merge(a,b).covers(a) && merge(a,b).covers(b)"): same file, and every
character position of `t` lies inside `s`. -/
def Span.covers (s t : Span) : Prop :=
  s.path = t.path ∧ s.index ≤ t.index ∧ t.index + t.size ≤ s.index + s.size

instance (s t : Span) : Decidable (s.covers t) := by
  unfold Span.covers; infer_instance

/-! ## The keyword/punctuator table (src/token.rs lines 118-191) -/

/-- `TokenType` from src/token.rs (64 variants, in source order). -/
inductive TokenType where
  | Comma | Semicolon | Colon | DoubleColon | Dot
  | OpenParen | CloseParen | OpenBrace | CloseBrace | OpenBracket | CloseBracket
  | Plus | PlusEq | Minus | MinusEq | Mul | MulEq | Div | DivEq
  | Modulo | ModuloEq | LeftShift | LeftShiftEq | RightShift | RightShiftEq
  | BitAnd | BitAndEq | BitOr | BitOrEq | BitXor | BitXorEq | BitNot
  | LogicalAnd | LogicalOr | LogicalNot
  | Eq | NotEq | Gt | Ge | Lt | Le | Assign | ReturnType | MatchCase
  | If | Else | Match | While | For | Break | Continue | Return
  | Fn | Let | Var | Struct | Enum | Union
  | Pub | Prv | Mod | Module | Import | Use
deriving DecidableEq

/-- `TOKEN_TYPES_STR` from src/token.rs lines 118-124 (the `{` and `}`
entries are written with `\x7b`/`\x7d` escapes). -/
def TOKEN_TYPES_STR : List String :=
  [",", ";", ":", "::", ".", "(", ")", "[", "]", "\x7b", "\x7d", "+", "+=",
   "-", "-=", "*", "*=", "/", "/=", "%", "%=", "<<", "<<=", ">>", ">>=",
   "&", "&=", "|", "|=", "^", "^=", "~", "and", "or", "!", "==", "!=", ">",
   ">=", "<", "<=", "=", "->", "=>", "if", "else", "match", "while", "for",
   "break", "continue", "return", "fn", "let", "var", "struct", "enum",
   "union", "pub", "prv", "mod", "module", "import", "use"]

/-- `TOKEN_TYPES_ENUM` from src/token.rs lines 126-191. -/
def TOKEN_TYPES_ENUM : List TokenType :=
  [.Comma, .Semicolon, .Colon, .DoubleColon, .Dot,
   .OpenParen, .CloseParen, .OpenBrace, .CloseBrace, .OpenBracket, .CloseBracket,
   .Plus, .PlusEq, .Minus, .MinusEq, .Mul, .MulEq, .Div, .DivEq,
   .Modulo, .ModuloEq, .LeftShift, .LeftShiftEq, .RightShift, .RightShiftEq,
   .BitAnd, .BitAndEq, .BitOr, .BitOrEq, .BitXor, .BitXorEq, .BitNot,
   .LogicalAnd, .LogicalOr, .LogicalNot,
   .Eq, .NotEq, .Gt, .Ge, .Lt, .Le, .Assign, .ReturnType, .MatchCase,
   .If, .Else, .Match, .While, .For, .Break, .Continue, .Return,
   .Fn, .Let, .Var, .Struct, .Enum, .Union,
   .Pub, .Prv, .Mod, .Module, .Import, .Use]

/-! ## Intern pool (src/intern_pool.rs) -/

/-- Lookup in an association list: the model of `HashMap::contains_key`
followed by indexing (`self.symbol_pool[&token]`). -/
def assocLookup (pool : List (String × Nat)) (k : String) : Option Nat :=
  match pool with
  | [] => none
  | e :: rest => if e.1 = k then some e.2 else assocLookup rest k

/-- `InternPool` from src/intern_pool.rs.  The two hash maps are modelled as
association lists (insertion prepends, which has the same lookup behaviour);
`PathBuf` is modelled as `String`. -/
structure InternPool where
  symbolCounter : Nat
  symbolPool : List (String × Nat)
  symbolReverse : Option (List String)
  pathCounter : Nat
  pathPool : List (String × Nat)
  pathReverse : Option (List String)
deriving DecidableEq

/-- `intern_pool::is_keyword`: an id is a keyword iff it is below the size of
the keyword table. -/
def isKeywordId (id : Nat) : Bool :=
  id < TOKEN_TYPES_STR.length

/-- `intern_pool::get_keyword`.  The source panics when the id is not a
keyword; it is only ever called under `is_keyword`, and the `getD` default is
never reached there. -/
def getKeywordOfId (id : Nat) : TokenType :=
  TOKEN_TYPES_ENUM.getD id .Comma

/-- `InternPool::new` (src/intern_pool.rs lines 78-94): keywords are
pre-inserted with ids `0..64` in table order. -/
def InternPool.new : InternPool :=
  TOKEN_TYPES_STR.foldl
    (fun pool kw =>
      { pool with
        symbolPool := (kw, pool.symbolCounter) :: pool.symbolPool
        symbolCounter := pool.symbolCounter + 1 })
    { symbolCounter := 0, symbolPool := [], symbolReverse := none
      pathCounter := 0, pathPool := [], pathReverse := none }

/-- `InternPool::insert_symbol` (src/intern_pool.rs lines 98-108).  The
`debug_assert!(self.symbol_reverse.is_none())` (growth phase) is a theorem
hypothesis. -/
def InternPool.insertSymbol (p : InternPool) (token : String) : Nat × InternPool :=
  match assocLookup p.symbolPool token with
  | some id => (id, p)
  | none =>
      (p.symbolCounter,
       { p with
         symbolPool := (token, p.symbolCounter) :: p.symbolPool
         symbolCounter := p.symbolCounter + 1 })

/-- `InternPool::search_symbol` (src/intern_pool.rs lines 125-132). -/
def InternPool.searchSymbol (p : InternPool) (token : String) : Option Nat :=
  assocLookup p.symbolPool token

/-- The reversal step of `InternPool::reverse`: `vec![String::new(); counter]`
with `reverse[id] = sym` for every pool entry.  When the ids are distinct each
slot is written at most once, so slot `i` holds the unique symbol with id `i`
(or stays `""`). -/
def reverseArray (counter : Nat) (pool : List (String × Nat)) : List String :=
  (List.range counter).map
    (fun i => ((pool.find? (fun e => e.2 == i)).map Prod.fst).getD "")

/-- `InternPool::reverse` (src/intern_pool.rs lines 137-154): builds both
reverse arrays if not already built; `std::mem::take` empties the pools. -/
def InternPool.reverse (p : InternPool) : InternPool :=
  let p1 :=
    if p.symbolReverse.isNone then
      { p with
        symbolReverse := some (reverseArray p.symbolCounter p.symbolPool)
        symbolPool := [] }
    else p
  if p1.pathReverse.isNone then
    { p1 with
      pathReverse := some (reverseArray p1.pathCounter p1.pathPool)
      pathPool := [] }
  else p1

/-- `InternPool::symbol_reverse_lookup` (src/intern_pool.rs lines 158-166). -/
def InternPool.symbolReverseLookup (p : InternPool) (id : Nat) :
    Option String × InternPool :=
  let p := p.reverse
  let rev := p.symbolReverse.getD []
  (if id < rev.length then rev[id]? else none, p)

/-- The reachable-state invariant of the symbol half of the pool: all ids are
below the counter, ids are pairwise distinct, keys are pairwise distinct. -/
def InternPool.SymbolWF (p : InternPool) : Prop :=
  (∀ e ∈ p.symbolPool, e.2 < p.symbolCounter) ∧
  (p.symbolPool.map Prod.snd).Nodup ∧
  (p.symbolPool.map Prod.fst).Nodup

instance (p : InternPool) : Decidable p.SymbolWF := by
  unfold InternPool.SymbolWF; infer_instance

theorem assocLookup_mem {pool : List (String × Nat)} {k : String} {v : Nat}
    (h : assocLookup pool k = some v) : (k, v) ∈ pool := by
  induction pool with
  | nil => simp [assocLookup] at h
  | cons e rest ih =>
      by_cases he : e.1 = k
      · simp [assocLookup, he] at h
        subst h
        simp [← he]
      · simp [assocLookup, he] at h
        exact List.mem_cons_of_mem _ (ih h)

theorem reverseArray_length (counter : Nat) (pool : List (String × Nat)) :
    (reverseArray counter pool).length = counter := by
  unfold reverseArray
  simp

theorem reverseArray_getElem {counter : Nat} {pool : List (String × Nat)}
    {s : String} {id : Nat}
    (hbound : ∀ e ∈ pool, e.2 < counter)
    (hids : (pool.map Prod.snd).Nodup)
    (hmem : (s, id) ∈ pool) :
    (reverseArray counter pool)[id]? = some s := by
  have hid : id < counter := hbound _ hmem
  unfold reverseArray
  rw [List.getElem?_map, List.getElem?_range hid]
  cases hq : pool.find? (fun e => e.2 == id) with
  | none =>
      exfalso
      have := List.find?_eq_none.mp hq (s, id) hmem
      simp at this
  | some q =>
      have hqmem : q ∈ pool := List.mem_of_find?_eq_some hq
      have hqid : q.2 = id := by
        have := List.find?_some hq
        simpa using this
      have hinj := List.inj_on_of_nodup_map hids
      have heq : q = (s, id) := hinj hqmem hmem (by simpa using hqid)
      subst heq
      simp [hq]

theorem InternPool.reverse_symbolReverse (p : InternPool)
    (h : p.symbolReverse = none) :
    p.reverse.symbolReverse = some (reverseArray p.symbolCounter p.symbolPool) := by
  unfold InternPool.reverse
  simp only [h, Option.isNone_none, if_true]
  split <;> rfl

theorem InternPool.symbolReverseLookup_fst (p : InternPool) (id : Nat)
    (h : p.symbolReverse = none) :
    (p.symbolReverseLookup id).1 =
      if id < (reverseArray p.symbolCounter p.symbolPool).length then
        (reverseArray p.symbolCounter p.symbolPool)[id]?
      else none := by
  unfold InternPool.symbolReverseLookup
  simp only [p.reverse_symbolReverse h, Option.getD_some]

/-- C7.  `insert_symbol` is idempotent: a second insertion of the same string
returns the same `SymbolId` and leaves the pool unchanged; and after the pool
is frozen by the first reverse lookup, `symbol_reverse_lookup` of that id
returns `Some(s)`.  Hypotheses: the pool is in its growth phase
(`symbol_reverse` is `None`, the `debug_assert!` of `insert_symbol`) and
satisfies the reachable-state invariant `SymbolWF`. -/
theorem C7_insert_idempotent_and_reverse (p : InternPool) (s : String)
    (hwf : p.SymbolWF) (hgrow : p.symbolReverse = none) :
    ((p.insertSymbol s).2.insertSymbol s).1 = (p.insertSymbol s).1 ∧
    ((p.insertSymbol s).2.insertSymbol s).2 = (p.insertSymbol s).2 ∧
    ((p.insertSymbol s).2.symbolReverseLookup (p.insertSymbol s).1).1 = some s := by
  obtain ⟨hbound, hids, hkeys⟩ := hwf
  cases hlook : assocLookup p.symbolPool s with
  | none =>
      -- the string is new: it is inserted with id `symbolCounter`
      have h1 : p.insertSymbol s =
          (p.symbolCounter,
           { p with
             symbolPool := (s, p.symbolCounter) :: p.symbolPool
             symbolCounter := p.symbolCounter + 1 }) := by
        unfold InternPool.insertSymbol
        rw [hlook]
      have h2 : assocLookup ((s, p.symbolCounter) :: p.symbolPool) s =
          some p.symbolCounter := by
        simp [assocLookup]
      refine ⟨?_, ?_, ?_⟩
      · rw [h1]; unfold InternPool.insertSymbol; simp [h2]
      · rw [h1]; unfold InternPool.insertSymbol; simp [h2]
      · rw [h1]
        rw [InternPool.symbolReverseLookup_fst _ _ (by simpa using hgrow)]
        have hlookup :
            (reverseArray (p.symbolCounter + 1)
              ((s, p.symbolCounter) :: p.symbolPool))[p.symbolCounter]? = some s := by
          apply reverseArray_getElem
          · intro e he
            rcases List.mem_cons.mp he with he | he
            · subst he; omega
            · exact Nat.lt_succ_of_lt (hbound _ he)
          · refine List.nodup_cons.mpr ⟨?_, hids⟩
            intro hc
            rcases List.mem_map.mp hc with ⟨e, he, hee⟩
            have := hbound _ he
            omega
          · exact List.mem_cons_self _ _
        rw [reverseArray_length]
        simp [hlookup]
  | some id =>
      -- the string is already interned with id `id`
      have h1 : p.insertSymbol s = (id, p) := by
        unfold InternPool.insertSymbol
        rw [hlook]
      have hmem : (s, id) ∈ p.symbolPool := assocLookup_mem hlook
      refine ⟨?_, ?_, ?_⟩
      · rw [h1]; unfold InternPool.insertSymbol; rw [hlook]
      · rw [h1]; unfold InternPool.insertSymbol; rw [hlook]
      · rw [h1]
        rw [InternPool.symbolReverseLookup_fst _ _ hgrow]
        have hlookup : (reverseArray p.symbolCounter p.symbolPool)[id]? = some s :=
          reverseArray_getElem hbound hids hmem
        rw [reverseArray_length]
        simp [hbound _ hmem, hlookup]

/-- Witness for C7 at a concrete input: the freshly created pool (64 keywords)
and the string "x". -/
theorem C7_insert_idempotent_witness :
    ((InternPool.new.insertSymbol "x").2.insertSymbol "x").1 =
      (InternPool.new.insertSymbol "x").1 ∧
    ((InternPool.new.insertSymbol "x").2.insertSymbol "x").2 =
      (InternPool.new.insertSymbol "x").2 ∧
    ((InternPool.new.insertSymbol "x").2.symbolReverseLookup
      (InternPool.new.insertSymbol "x").1).1 = some "x" :=
  C7_insert_idempotent_and_reverse InternPool.new "x" (by decide) rfl

/-! ## C2: span merge -/

/-- C2 (code bug).  Merging spans `a` (characters `[0,1)`) and `b`
(characters `[2,3)`) of the same file, in the operand order every parser call
site uses (`later - earlier`, satisfying both `debug_assert!`s), yields a
span starting at index 2 — the start of the *later* span, not of the earlier
one — which does not cover `a` and is not the smallest span covering both
(that would be `[0,3)`).  The `size` field is computed as if the result
started at the earlier span, so the result even extends past the end of both
inputs. -/
theorem C2_span_merge_not_covering :
    let a : Span := { path := 0, line := 1, column := 1, index := 0, size := 1 }
    let b : Span := { path := 0, line := 1, column := 3, index := 2, size := 1 }
    -- operand-order precondition of the merge (the debug asserts):
    b.path = a.path ∧ b.index + b.size ≥ a.index ∧
    -- what the code computes:
    b.sub a = { path := 0, line := 1, column := 3, index := 2, size := 3 } ∧
    -- the claim fails: the start is not the earlier start, `a` is not covered
    (b.sub a).index ≠ a.index ∧ ¬ (b.sub a).covers a := by
  decide

/-! ## Lexer data (src/token.rs, src/lexer/mod.rs)

Every lexer loop below takes a `fuel : Nat` parameter so that it is
structurally recursive (and therefore kernel-computable).  Each loop iteration
of the source consumes at least one input character, so fuel
`input.length + 1` always reaches the loop's exit; the fuel-exhaustion
branches are unreachable artifacts. -/

/-- The data `read_decimal_or_float_number` collects for a float literal:
sign, integer part, fraction digits.  The source folds these into an `f64`
(`(number as f64) + fraction`); no claim concerns the floating-point value,
so the embedding keeps the exact collected data instead. -/
structure FloatLit where
  negative : Bool
  intPart : Nat
  fracDigits : List Nat
deriving DecidableEq

/-- `Literal` from src/token.rs: `UInt(u64)` as a `Nat` (kept `< 2^64` by the
checked arithmetic), `Int(i64)` as an `Int`. -/
inductive Literal where
  | uint (n : Nat)
  | int (i : Int)
  | float (f : FloatLit)
  | string (s : String)
deriving DecidableEq

/-- `TokenValue` from src/token.rs; `SymbolId` is modelled as `Nat`. -/
inductive TokenValue where
  | identifier (id : Nat)
  | literal (lit : Literal)
  | keyword (t : TokenType)
deriving DecidableEq

/-- `Token` from src/token.rs. -/
structure Token where
  value : TokenValue
  span : TokenSpan
deriving DecidableEq

/-- `lexer::ErrorType` from src/lexer/mod.rs. -/
inductive LexErrorType where
  | UnclosedString
  | InvalidEscapeSequence
  | InvalidNumber
  | UnknownCharacter
deriving DecidableEq

/-- `lexer::Error`.  The span stored is the `end_token()` value at the failing
position; the lexer's `path` field, which the source's `Span` would carry, is
tracked separately by the state. -/
structure LexError where
  typ : LexErrorType
  span : TokenSpan
  msg : String
deriving DecidableEq

/-- Rust `char::is_ascii_punctuation`. -/
def isAsciiPunctuation (c : Char) : Bool :=
  (33 ≤ c.toNat && c.toNat ≤ 47) || (58 ≤ c.toNat && c.toNat ≤ 64) ||
  (91 ≤ c.toNat && c.toNat ≤ 96) || (123 ≤ c.toNat && c.toNat ≤ 126)

/-- Rust `char::is_control` (Unicode category Cc: U+0000..U+001F and
U+007F..U+009F). -/
def isControlChar (c : Char) : Bool :=
  c.toNat < 32 || (127 ≤ c.toNat && c.toNat ≤ 159)

/-- Rust `char::is_ascii_hexdigit`. -/
def isAsciiHexDigit (c : Char) : Bool :=
  c.isDigit || ('a' ≤ c && c ≤ 'f') || ('A' ≤ c && c ≤ 'F')

/-- Value of an ASCII hex digit (`char::to_digit(16)` on a valid digit). -/
def hexDigitValue (c : Char) : Nat :=
  if c.isDigit then c.toNat - 48
  else if 'a' ≤ c && c ≤ 'f' then c.toNat - 87
  else c.toNat - 55

/-- `u64::MAX`. -/
def U64MAX : Nat := 2 ^ 64 - 1

/-- The numeric value of a digit string in the given radix. -/
def radixValue (radix : Nat) (digits : List Char) : Nat :=
  digits.foldl (fun acc c => acc * radix + hexDigitValue c) 0

/-- `u64::from_str_radix` on a nonempty string of valid digits (which is what
the number lexers pass): it can only fail by overflow. -/
def u64FromStrRadix (radix : Nat) (digits : List Char) : Option Nat :=
  if radixValue radix digits ≤ U64MAX then some (radixValue radix digits)
  else none

/-- `u32::from_str_radix(s, 16)`: fails on an empty string, a character that
is not a hex digit, or overflow. -/
def u32FromStrRadix16 (digits : List Char) : Option Nat :=
  if digits = [] then none
  else if digits.all isAsciiHexDigit then
    if radixValue 16 digits < 2 ^ 32 then some (radixValue 16 digits) else none
  else none

/-- `std::char::from_u32`: `Some` exactly on Unicode scalar values. -/
def charFromU32 (codePoint : Nat) : Option Char :=
  if codePoint < 0xD800 ∨ (0xE000 ≤ codePoint ∧ codePoint < 0x110000) then
    some (Char.ofNat codePoint)
  else none

/-- `number as i64`: two's-complement reinterpretation of a `u64` value. -/
def i64OfU64 (n : Nat) : Int :=
  if n < 2 ^ 63 then (n : Int) else (n : Int) - 2 ^ 64

/-- Wrapping `i64` negation, the release-build behaviour of `-x` (a debug
build panics when `x = i64::MIN`). -/
def i64WrapNeg (x : Int) : Int :=
  (-x + 2 ^ 63) % 2 ^ 64 - 2 ^ 63

/-- The `Lexer` state struct from src/lexer/mod.rs. -/
structure Lexer where
  path : Nat
  input : List Char
  index : Nat
  line : Nat
  column : Nat
  startIndex : Nat
  startLine : Nat
  startColumn : Nat
deriving DecidableEq

/-- `Lexer::peek` (src/lexer/utils.rs). -/
def Lexer.peek (l : Lexer) : Option Char := l.input[l.index]?

/-- `Lexer::peek2` (src/lexer/utils.rs). -/
def Lexer.peek2 (l : Lexer) : Option Char := l.input[l.index + 1]?

/-- `Lexer::advance` (src/lexer/utils.rs). -/
def Lexer.advance (l : Lexer) : Lexer :=
  match l.peek with
  | some ch =>
      if ch = '\n' then
        { l with index := l.index + 1, line := l.line + 1, column := 1 }
      else
        { l with index := l.index + 1, column := l.column + 1 }
  | none => l

/-- `Lexer::start_token` (src/lexer/utils.rs). -/
def Lexer.startToken (l : Lexer) : Lexer :=
  { l with startIndex := l.index, startLine := l.line, startColumn := l.column }

/-- `Lexer::end_token` (src/lexer/utils.rs). -/
def Lexer.endToken (l : Lexer) : TokenSpan :=
  { line := l.startLine
    column := l.startColumn
    index := l.startIndex
    size := l.index - l.startIndex }

/-- `Lexer::error` (src/lexer/utils.rs). -/
def Lexer.error (l : Lexer) (typ : LexErrorType) (msg : String) : LexError :=
  { typ := typ, span := l.endToken, msg := msg }

/-! ## Lexer: skipping and identifiers (src/lexer/skip.rs, identifier.rs) -/

/-- The `while` loop of `Lexer::skip_whitespace`.  Rust's `is_whitespace` is
Unicode-aware; `Char.isWhitespace` models its ASCII fragment, which agrees on
all inputs evaluated below. -/
def Lexer.skipWhitespaceLoop (fuel : Nat) (l : Lexer) (found : Bool) :
    Bool × Lexer :=
  match fuel with
  | 0 => (found, l)
  | fuel + 1 =>
      match l.peek with
      | some ch =>
          if ch.isWhitespace then l.advance.skipWhitespaceLoop fuel true
          else (found, l)
      | none => (found, l)

/-- `Lexer::skip_whitespace` (src/lexer/skip.rs). -/
def Lexer.skipWhitespace (l : Lexer) : Bool × Lexer :=
  l.skipWhitespaceLoop (l.input.length + 1) false

/-- The consuming loop of `Lexer::skip_comment` (advance until just past a
newline or to the end). -/
def Lexer.skipCommentLoop (fuel : Nat) (l : Lexer) : Lexer :=
  match fuel with
  | 0 => l
  | fuel + 1 =>
      match l.peek with
      | some ch => if ch = '\n' then l.advance else l.advance.skipCommentLoop fuel
      | none => l

/-- `Lexer::skip_comment` (src/lexer/skip.rs). -/
def Lexer.skipComment (l : Lexer) : Bool × Lexer :=
  if l.peek = some '/' ∧ l.peek2 = some '/' then
    (true, l.skipCommentLoop (l.input.length + 1))
  else (false, l)

/-- The `while self.skip_whitespace() || self.skip_comment() {}` loop of
`skip_whitespace_and_comments`; `||` short-circuits, so `skip_comment` runs
only when `skip_whitespace` found nothing. -/
def Lexer.skipWhitespaceAndCommentsLoop (fuel : Nat) (l : Lexer) : Lexer :=
  match fuel with
  | 0 => l
  | fuel + 1 =>
      let (found1, l1) := l.skipWhitespace
      if found1 then l1.skipWhitespaceAndCommentsLoop fuel
      else
        let (found2, l2) := l1.skipComment
        if found2 then l2.skipWhitespaceAndCommentsLoop fuel else l2

/-- `Lexer::skip_whitespace_and_comments` (src/lexer/skip.rs). -/
def Lexer.skipWhitespaceAndComments (l : Lexer) : Lexer :=
  l.skipWhitespaceAndCommentsLoop (l.input.length + 1)

/-- The collecting loop of `Lexer::read_identifier`.  Rust's
`char::is_alphanumeric` is Unicode-aware; `Char.isAlphanum` models its ASCII
fragment (the language admits only ASCII identifiers, and every input
evaluated below is ASCII). -/
def Lexer.readIdentifierLoop (fuel : Nat) (l : Lexer) (acc : List Char) :
    List Char × Lexer :=
  match fuel with
  | 0 => (acc, l)
  | fuel + 1 =>
      match l.peek with
      | some ch =>
          if ch.isAlphanum || ch = '_' then
            l.advance.readIdentifierLoop fuel (acc ++ [ch])
          else (acc, l)
      | none => (acc, l)

/-- `Lexer::read_identifier` (src/lexer/identifier.rs): collect the word,
intern it, and classify by whether the id falls in the reserved keyword
range. -/
def Lexer.readIdentifier (l : Lexer) (pool : InternPool) :
    TokenValue × Lexer × InternPool :=
  let (chars, l') := l.readIdentifierLoop (l.input.length + 1) []
  let (id, pool') := pool.insertSymbol (String.mk chars)
  (if isKeywordId id then .keyword (getKeywordOfId id) else .identifier id,
   l', pool')

/-! ## Lexer: numbers (src/lexer/number.rs) -/

/-- `number.checked_mul(10).and_then(|n| n.checked_add(digit))`. -/
def checkedMulAddDigit (number digit : Nat) : Option Nat :=
  if number * 10 ≤ U64MAX then
    if number * 10 + digit ≤ U64MAX then some (number * 10 + digit) else none
  else none

/-- The `while` loop of `Lexer::collect_digits`. -/
def Lexer.collectDigitsLoop (fuel : Nat) (l : Lexer) (number : Nat)
    (found : Bool) : Except LexError (Nat × Bool × Lexer) :=
  match fuel with
  | 0 => .ok (number, found, l)
  | fuel + 1 =>
      match l.peek with
      | some ch =>
          if ch.isDigit then
            match checkedMulAddDigit number (ch.toNat - 48) with
            | some n => l.advance.collectDigitsLoop fuel n true
            | none => .error (l.error .InvalidNumber "Integer overflow in number")
          else .ok (number, found, l)
      | none => .ok (number, found, l)

/-- `Lexer::collect_digits` (src/lexer/number.rs lines 41-67). -/
def Lexer.collectDigits (l : Lexer) : Except LexError (Nat × Lexer) :=
  match l.collectDigitsLoop (l.input.length + 1) 0 false with
  | .error e => .error e
  | .ok (number, found, l') =>
      if found then .ok (number, l')
      else .error (l'.error .InvalidNumber "No digits found in number")

/-- The `while` loop of `Lexer::collect_fraction`, keeping the digits
(the source folds them into an `f64`). -/
def Lexer.collectFractionLoop (fuel : Nat) (l : Lexer) (digits : List Nat)
    (found : Bool) : List Nat × Bool × Lexer :=
  match fuel with
  | 0 => (digits, found, l)
  | fuel + 1 =>
      match l.peek with
      | some ch =>
          if ch.isDigit then
            l.advance.collectFractionLoop fuel (digits ++ [ch.toNat - 48]) true
          else (digits, found, l)
      | none => (digits, found, l)

/-- `Lexer::collect_fraction` (src/lexer/number.rs lines 69-89). -/
def Lexer.collectFraction (l : Lexer) : Except LexError (List Nat × Lexer) :=
  match l.collectFractionLoop (l.input.length + 1) [] false with
  | (digits, found, l') =>
      if found then .ok (digits, l')
      else .error (l'.error .InvalidNumber "No digits found after decimal point")

/-- `Lexer::consume_negative_sign`.  The source `unwrap`s `peek()`; at every
call site the dispatch guarantees the position holds a digit or `-`. -/
def Lexer.consumeNegativeSign (l : Lexer) : Bool × Lexer :=
  if l.peek = some '-' then (true, l.advance) else (false, l)

/-- `Lexer::make_integer` (src/lexer/number.rs lines 91-104).  The source
computes `number - 1` on a `u64`: in a release build this wraps — modelled by
the `% 2^64` arithmetic below — and in a debug build `number = 0` panics with
an arithmetic underflow.  Likewise `-(number as i64)` wraps in release builds
(modelled by `i64WrapNeg`) and panics in debug builds when `number = 2^63`. -/
def Lexer.makeInteger (l : Lexer) (number : Nat) (negative : Bool) :
    Except LexError TokenValue :=
  if negative then
    if (number + (2 ^ 64 - 1)) % 2 ^ 64 > 2 ^ 63 - 1 then
      .error (l.error .InvalidNumber "Integer overflow in negative number")
    else .ok (.literal (.int (i64WrapNeg (i64OfU64 number))))
  else .ok (.literal (.uint number))

/-- `Lexer::read_decimal_or_float_number` (src/lexer/number.rs lines 19-30);
the explicit matches are the desugared `?` operators. -/
def Lexer.readDecimalOrFloatNumber (l : Lexer) :
    Except LexError (TokenValue × Lexer) :=
  match l.consumeNegativeSign with
  | (negative, l1) =>
      match l1.collectDigits with
      | .error e => .error e
      | .ok (number, l2) =>
          if l2.peek ≠ some '.' then
            match l2.makeInteger number negative with
            | .error e => .error e
            | .ok v => .ok (v, l2)
          else
            match l2.advance.collectFraction with
            | .error e => .error e
            | .ok (fraction, l3) =>
                .ok (.literal (.float ⟨negative, number, fraction⟩), l3)

/-- The hex-digit collecting loop of `Lexer::read_hexadecimal_number`. -/
def Lexer.readHexDigitsLoop (fuel : Nat) (l : Lexer) (acc : List Char) :
    List Char × Lexer :=
  match fuel with
  | 0 => (acc, l)
  | fuel + 1 =>
      match l.peek with
      | some ch =>
          if isAsciiHexDigit ch then l.advance.readHexDigitsLoop fuel (acc ++ [ch])
          else (acc, l)
      | none => (acc, l)

/-- `Lexer::read_hexadecimal_number` (src/lexer/number.rs lines 106-132); the
two `advance`s skip the `0` and the `x`/`X`. -/
def Lexer.readHexadecimalNumber (l : Lexer) : Except LexError (TokenValue × Lexer) :=
  match l.advance.advance.readHexDigitsLoop (l.advance.advance.input.length + 1) [] with
  | (hexStr, l') =>
      if hexStr = [] then
        .error (l'.error .InvalidNumber "No digits found in hexadecimal number")
      else
        match u64FromStrRadix 16 hexStr with
        | some value => .ok (.literal (.uint value), l')
        | none => .error (l'.error .InvalidNumber "Invalid hexadecimal number")

/-- The binary-digit collecting loop of `Lexer::read_binary_number`. -/
def Lexer.readBinDigitsLoop (fuel : Nat) (l : Lexer) (acc : List Char) :
    List Char × Lexer :=
  match fuel with
  | 0 => (acc, l)
  | fuel + 1 =>
      match l.peek with
      | some ch =>
          if ch = '0' || ch = '1' then l.advance.readBinDigitsLoop fuel (acc ++ [ch])
          else (acc, l)
      | none => (acc, l)

/-- `Lexer::read_binary_number` (src/lexer/number.rs lines 134-160); the two
`advance`s skip the `0` and the `b`/`B`. -/
def Lexer.readBinaryNumber (l : Lexer) : Except LexError (TokenValue × Lexer) :=
  match l.advance.advance.readBinDigitsLoop (l.advance.advance.input.length + 1) [] with
  | (binStr, l') =>
      if binStr = [] then
        .error (l'.error .InvalidNumber "No digits found in binary number")
      else
        match u64FromStrRadix 2 binStr with
        | some value => .ok (.literal (.uint value), l')
        | none => .error (l'.error .InvalidNumber "Invalid binary number")

/-- `Lexer::read_number` (src/lexer/number.rs lines 5-17).  The leading
`peek().unwrap()` is `some` at every call site (the token dispatch only calls
this on a digit, or on `-` followed by a digit); the `none` branch models the
unreachable panic as an error. -/
def Lexer.readNumber (l : Lexer) : Except LexError (TokenValue × Lexer) :=
  match l.peek with
  | none => .error (l.error .InvalidNumber "No digits found in number")
  | some ch =>
      if ch = '0' then
        match l.input[l.index + 1]? with
        | some nextCh =>
            if nextCh = 'x' ∨ nextCh = 'X' then l.readHexadecimalNumber
            else if nextCh = 'b' ∨ nextCh = 'B' then l.readBinaryNumber
            else l.readDecimalOrFloatNumber
        | none => l.readDecimalOrFloatNumber
      else l.readDecimalOrFloatNumber

/-! ## Lexer: strings (src/lexer/string.rs) -/

/-- `Lexer::unclosed_string_error`. -/
def Lexer.unclosedStringError (l : Lexer) : LexError :=
  l.error .UnclosedString "Unclosed string literal"

/-- `Lexer::read_hexidecimal_escape_sequence` (src/lexer/string.rs lines
75-96).  `u8::from_str_radix` on two characters succeeds exactly when both
are hex digits, and a byte cast to `char` is always a valid scalar. -/
def Lexer.readHexadecimalEscapeSequence (l : Lexer) :
    Except LexError (Char × Lexer) :=
  match l.peek, l.peek2 with
  | some h1, some h2 =>
      if isAsciiHexDigit h1 && isAsciiHexDigit h2 then
        .ok (Char.ofNat (hexDigitValue h1 * 16 + hexDigitValue h2),
             l.advance.advance)
      else .error (l.error .InvalidEscapeSequence "Invalid hex escape sequence")
  | _, _ => .error (l.error .InvalidEscapeSequence "Incomplete hex escape sequence")

/-- The digit-skipping `while` loop of `read_unicode_escape_sequence`
(src/lexer/string.rs lines 106-117). -/
def Lexer.unicodeEscapeLoop (fuel : Nat) (l : Lexer) : Except LexError Lexer :=
  match fuel with
  | 0 => .ok l
  | fuel + 1 =>
      match l.peek with
      | some ch =>
          if ch = '}' then .ok l
          else if isAsciiHexDigit ch then l.advance.unicodeEscapeLoop fuel
          else .error (l.error .InvalidEscapeSequence "Invalid character in Unicode escape")
      | none => .ok l

/-- `Lexer::read_unicode_escape_sequence` (src/lexer/string.rs lines 98-143).
The hex string is the slice `self.input[self.start_index + 2 .. self.index]`,
taken literally from the source: it starts two characters after the start of
the current *token* (`start_index` is set by `start_token`, i.e. at the
opening quote of the string literal), not at the escape's digits. -/
def Lexer.readUnicodeEscapeSequence (l : Lexer) :
    Except LexError (Char × Lexer) :=
  if l.peek ≠ some '{' then
    .error (l.error .InvalidEscapeSequence "Expected open brace after u escape")
  else do
    let l1 := l.advance
    let l2 ← l1.unicodeEscapeLoop (l1.input.length + 1)
    if l2.peek ≠ some '}' then
      .error (l2.error .InvalidEscapeSequence "Unclosed Unicode escape sequence")
    else
      let hexStr :=
        (l2.input.drop (l2.startIndex + 2)).take (l2.index - (l2.startIndex + 2))
      let l3 := l2.advance
      match u32FromStrRadix16 hexStr with
      | some codePoint =>
          match charFromU32 codePoint with
          | some ch => .ok (ch, l3)
          | none => .error (l3.error .InvalidEscapeSequence "Invalid Unicode code point")
      | none => .error (l3.error .InvalidEscapeSequence "Invalid Unicode escape sequence")

/-- `Lexer::read_escape_sequence` (src/lexer/string.rs lines 49-73). -/
def Lexer.readEscapeSequence (l : Lexer) : Except LexError (Char × Lexer) :=
  match l.peek with
  | none => .error (l.error .InvalidEscapeSequence "No character after escape")
  | some ch =>
      let l1 := l.advance
      if ch = 'n' then .ok ('\n', l1)
      else if ch = 't' then .ok ('\t', l1)
      else if ch = 'r' then .ok ('\r', l1)
      else if ch = '\\' then .ok ('\\', l1)
      else if ch = '"' then .ok ('"', l1)
      else if ch = 'x' then l1.readHexadecimalEscapeSequence
      else if ch = 'u' then l1.readUnicodeEscapeSequence
      else .error (l1.error .InvalidEscapeSequence "Invalid escape sequence")

/-- The main loop of `Lexer::read_string` (src/lexer/string.rs lines 9-28). -/
def Lexer.readStringLoop (fuel : Nat) (l : Lexer) (content : String) :
    Except LexError (TokenValue × Lexer) :=
  match fuel with
  | 0 => .error l.unclosedStringError
  | fuel + 1 =>
      match l.peek with
      | some ch =>
          if ch = '\\' then
            match l.advance.readEscapeSequence with
            | .ok (c, l') => l'.readStringLoop fuel (content.push c)
            | .error e => .error e
          else if ch = '"' then .ok (.literal (.string content), l.advance)
          else if ch = '\n' then .error l.unclosedStringError
          else if isControlChar ch then
            .error (l.error .InvalidEscapeSequence "Control character in string literal")
          else l.advance.readStringLoop fuel (content.push ch)
      | none => .error l.unclosedStringError

/-- `Lexer::read_string` (src/lexer/string.rs lines 5-29): skip the opening
quote, then run the loop. -/
def Lexer.readString (l : Lexer) : Except LexError (TokenValue × Lexer) :=
  l.advance.readStringLoop (l.input.length + 1) ""

/-! ## Lexer: punctuators (src/lexer/punctuator.rs) -/

/-- The trie-free longest-match loop of `Lexer::read_punctuator`: grow the
candidate while the next character is ASCII punctuation and the candidate is
still in the pool, remembering the last candidate whose id was in the keyword
range. -/
def Lexer.readPunctuatorLoop (fuel : Nat) (l : Lexer) (pool : InternPool)
    (punc : List Char) (keyword : Option TokenType) (kwI i : Nat) :
    Option TokenType × Nat :=
  match fuel with
  | 0 => (keyword, kwI)
  | fuel + 1 =>
      match l.input[l.index + i]? with
      | some ch =>
          if isAsciiPunctuation ch then
            let punc' := punc ++ [ch]
            match pool.searchSymbol (String.mk punc') with
            | some id =>
                if isKeywordId id then
                  l.readPunctuatorLoop fuel pool punc' (some (getKeywordOfId id)) i (i + 1)
                else
                  l.readPunctuatorLoop fuel pool punc' keyword kwI (i + 1)
            | none => (keyword, kwI)
          else (keyword, kwI)
      | none => (keyword, kwI)

/-- `Lexer::read_punctuator` (src/lexer/punctuator.rs). -/
def Lexer.readPunctuator (l : Lexer) (pool : InternPool) :
    Except LexError (TokenValue × Lexer) :=
  match l.readPunctuatorLoop (l.input.length + 1) pool [] none 0 0 with
  | (some kw, kwI) =>
      .ok (.keyword kw,
           { l with index := l.index + kwI + 1, column := l.column + kwI + 1 })
  | (none, _) => .error (l.error .UnknownCharacter "Unknown punctuator")

/-! ## Lexer: token dispatch and the top loop (src/lexer/utils.rs, mod.rs) -/

/-- `Lexer::next_token_value` (src/lexer/utils.rs lines 44-66).  `ch` is the
character the source reads with `self.peek().unwrap()`; `next_token` calls
this only when `peek` is `some ch`.  Rust's `char::is_alphabetic` is
Unicode-aware; `Char.isAlpha` models its ASCII fragment. -/
def Lexer.nextTokenValue (ch : Char) (l : Lexer) (pool : InternPool) :
    Except LexError (TokenValue × Lexer × InternPool) :=
  if ch.isAlpha || ch = '_' then
    .ok (l.readIdentifier pool)
  else if ch = '"' then
    match l.readString with
    | .ok (v, l') => .ok (v, l', pool)
    | .error e => .error e
  else if isAsciiPunctuation ch then
    if ch = '-' ∧ (∃ c, l.peek2 = some c ∧ c.isDigit) then
      match l.readNumber with
      | .ok (v, l') => .ok (v, l', pool)
      | .error e => .error e
    else
      match l.readPunctuator pool with
      | .ok (v, l') => .ok (v, l', pool)
      | .error e => .error e
  else if ch.isDigit then
    match l.readNumber with
    | .ok (v, l') => .ok (v, l', pool)
    | .error e => .error e
  else .error (l.error .UnknownCharacter "Unrecognized character")

instance (l : Lexer) : Decidable (∃ c, l.peek2 = some c ∧ c.isDigit) := by
  unfold Lexer.peek2
  cases l.input[l.index + 1]? with
  | none => exact .isFalse (by simp)
  | some c => exact decidable_of_iff (c.isDigit = true) (by simp)

/-- `Lexer::next_token` (src/lexer/utils.rs lines 27-41). -/
def Lexer.nextToken (l : Lexer) (pool : InternPool) :
    Except LexError (Option (Token × Lexer × InternPool)) :=
  let l := l.skipWhitespaceAndComments
  let l := l.startToken
  match l.peek with
  | none => .ok none
  | some ch =>
      match l.nextTokenValue ch pool with
      | .ok (value, l', pool') =>
          .ok (some ({ value := value, span := l'.endToken }, l', pool'))
      | .error e => .error e

/-- The `while let` loop of `Lexer::lex` (src/lexer/mod.rs lines 109-112).
Each produced token consumes at least one character, so fuel
`input.length + 1` suffices. -/
def Lexer.lexLoop (fuel : Nat) (l : Lexer) (pool : InternPool)
    (acc : List Token) : Except LexError (List Token × InternPool) :=
  match fuel with
  | 0 => .ok (acc.reverse, pool)
  | fuel + 1 =>
      match l.nextToken pool with
      | .error e => .error e
      | .ok none => .ok (acc.reverse, pool)
      | .ok (some (t, l', pool')) => Lexer.lexLoop fuel l' pool' (t :: acc)

/-- `Lexer::lex` (src/lexer/mod.rs lines 94-114). -/
def Lexer.lex (path : Nat) (input : List Char) (pool : InternPool) :
    Except LexError (List Token × InternPool) :=
  Lexer.lexLoop (input.length + 1)
    { path := path, input := input, index := 0, line := 1, column := 1
      startIndex := 0, startLine := 1, startColumn := 1 }
    pool []

/-! ## Lexer lemmas and the lexer claims -/

theorem Lexer.makeInteger_ok_literal {l : Lexer} {n : Nat} {neg : Bool}
    {v : TokenValue} (h : l.makeInteger n neg = .ok v) :
    ∃ lit, v = .literal lit := by
  unfold Lexer.makeInteger at h
  split at h
  · split at h
    · cases h
    · simp only [Except.ok.injEq] at h
      exact ⟨_, h.symm⟩
  · simp only [Except.ok.injEq] at h
    exact ⟨_, h.symm⟩

theorem Lexer.readDecimalOrFloatNumber_ok_literal {l : Lexer} {v : TokenValue}
    {l' : Lexer} (h : l.readDecimalOrFloatNumber = .ok (v, l')) :
    ∃ lit, v = .literal lit := by
  unfold Lexer.readDecimalOrFloatNumber at h
  split at h
  split at h
  · cases h
  · split at h
    · split at h
      · cases h
      · rename_i hmi
        simp only [Except.ok.injEq, Prod.mk.injEq] at h
        exact h.1 ▸ Lexer.makeInteger_ok_literal hmi
    · split at h
      · cases h
      · simp only [Except.ok.injEq, Prod.mk.injEq] at h
        exact ⟨_, h.1.symm⟩

theorem Lexer.readHexadecimalNumber_ok_literal {l : Lexer} {v : TokenValue}
    {l' : Lexer} (h : l.readHexadecimalNumber = .ok (v, l')) :
    ∃ lit, v = .literal lit := by
  unfold Lexer.readHexadecimalNumber at h
  split at h
  split at h
  · cases h
  · split at h
    · simp only [Except.ok.injEq, Prod.mk.injEq] at h
      exact ⟨_, h.1.symm⟩
    · cases h

theorem Lexer.readBinaryNumber_ok_literal {l : Lexer} {v : TokenValue}
    {l' : Lexer} (h : l.readBinaryNumber = .ok (v, l')) :
    ∃ lit, v = .literal lit := by
  unfold Lexer.readBinaryNumber at h
  split at h
  split at h
  · cases h
  · split at h
    · simp only [Except.ok.injEq, Prod.mk.injEq] at h
      exact ⟨_, h.1.symm⟩
    · cases h

/-- On success `read_number` always produces a literal token value (never a
keyword or identifier). -/
theorem Lexer.readNumber_ok_literal {l : Lexer} {v : TokenValue} {l' : Lexer}
    (h : l.readNumber = .ok (v, l')) : ∃ lit, v = .literal lit := by
  unfold Lexer.readNumber at h
  split at h
  · cases h
  · split at h
    · split at h
      · split at h
        · exact Lexer.readHexadecimalNumber_ok_literal h
        · split at h
          · exact Lexer.readBinaryNumber_ok_literal h
          · exact Lexer.readDecimalOrFloatNumber_ok_literal h
      · exact Lexer.readDecimalOrFloatNumber_ok_literal h
    · exact Lexer.readDecimalOrFloatNumber_ok_literal h

/-- C3 (code bug).  The spec's keyword table lists `true`, `false` and the
primitive type names `u8 … bool`, but `TOKEN_TYPES_STR` (src/token.rs lines
118-124) contains none of them, so each of them lexes to an `Identifier`
token with a fresh id outside the reserved keyword range — not to a
`Keyword` token.  (The semantic resolver's `keyword_to_primitive`
(src/semantic_parser/mod.rs lines 208-228) requires exactly these names to
be in the keyword range, via `TokenType::U8 … TokenType::Bool` variants that
src/token.rs does not define, so the table contradicts its own caller.) -/
theorem C3_primitive_names_not_keywords :
    (["true", "false", "u8", "u16", "u32", "u64", "usize", "i8", "i16",
      "i32", "i64", "isize", "f32", "f64", "bool"].all
        (fun s => !(TOKEN_TYPES_STR.contains s)) = true) ∧
    Lexer.lex 0 ['t', 'r', 'u', 'e'] InternPool.new =
      .ok ([{ value := .identifier 64
              span := { line := 1, column := 1, index := 0, size := 4 } }],
           (InternPool.new.insertSymbol "true").2) ∧
    Lexer.lex 0 ['u', '8'] InternPool.new =
      .ok ([{ value := .identifier 64
              span := { line := 1, column := 1, index := 0, size := 2 } }],
           (InternPool.new.insertSymbol "u8").2) ∧
    isKeywordId 64 = false :=
  ⟨by decide, rfl, rfl, by decide⟩

/-- C5 (code bug).  `make_integer` computes `number - 1` on a `u64`, so the
input `-0` (that is, `n = 0`, squarely inside the claimed range
`0 ≤ n ≤ 2^63`) underflows: a release build wraps to `u64::MAX` and reports
`InvalidNumber`, a debug build panics — the lexer neither succeeds nor
returns `Int(0)`.  The second conjunct reproduces the repo's own test
(`"-45"` lexes to `Int(-45)`), showing the embedding and the surrounding
range check agree with the source elsewhere. -/
theorem C5_negative_zero_rejected :
    Lexer.lex 0 ['-', '0'] InternPool.new =
      .error { typ := .InvalidNumber
               span := { line := 1, column := 1, index := 0, size := 2 }
               msg := "Integer overflow in negative number" } ∧
    Lexer.lex 0 ['-', '4', '5'] InternPool.new =
      .ok ([{ value := .literal (.int (-45))
              span := { line := 1, column := 1, index := 0, size := 3 } }],
           InternPool.new) :=
  ⟨rfl, rfl⟩

/-- C6 (code bug).  `read_unicode_escape_sequence` slices the hex digits as
`self.input[self.start_index + 2 .. self.index]`, but `start_index` is the
start of the *token* (the opening quote), so the slice always begins with
`u{`; `u32::from_str_radix` then fails and every `\u{H+}` escape — here
`"\u{41}"`, which the claim says lexes to `"A"` — is rejected with
`InvalidEscapeSequence`.  The second conjunct shows the hex escape `"\x41"`
does produce `"A"`, isolating the bug to the unicode slice. -/
theorem C6_unicode_escape_rejected :
    Lexer.lex 0 ['"', '\\', 'u', '\x7b', '4', '1', '\x7d', '"'] InternPool.new =
      .error { typ := .InvalidEscapeSequence
               span := { line := 1, column := 1, index := 0, size := 7 }
               msg := "Invalid Unicode escape sequence" } ∧
    Lexer.lex 0 ['"', '\\', 'x', '4', '1', '"'] InternPool.new =
      .ok ([{ value := .literal (.string "A")
              span := { line := 1, column := 1, index := 0, size := 6 } }],
           InternPool.new) :=
  ⟨rfl, rfl⟩

/-- C9 (confirmed).  Whenever the token dispatch sees `-` immediately
followed by an ASCII digit it runs the number lexer — whose successful
results are always literal tokens, never the `Minus` punctuator — and in
particular `x-1` lexes as `Identifier(x)` followed by `Int(-1)`, three
characters but two tokens. -/
theorem C9_minus_digit_lexes_negative_number :
    (∀ (l : Lexer) (pool : InternPool) (c : Char),
      l.peek2 = some c → c.isDigit →
        l.nextTokenValue '-' pool =
          match l.readNumber with
          | .ok (v, l') => .ok (v, l', pool)
          | .error e => .error e) ∧
    (∀ (l : Lexer) (v : TokenValue) (l' : Lexer),
      l.readNumber = .ok (v, l') → ∃ lit, v = .literal lit) ∧
    Lexer.lex 0 ['x', '-', '1'] InternPool.new =
      .ok ([{ value := .identifier 64
              span := { line := 1, column := 1, index := 0, size := 1 } },
            { value := .literal (.int (-1))
              span := { line := 1, column := 2, index := 1, size := 2 } }],
           (InternPool.new.insertSymbol "x").2) := by
  refine ⟨?_, fun _ _ _ h => Lexer.readNumber_ok_literal h, rfl⟩
  intro l pool c h1 h2
  unfold Lexer.nextTokenValue
  rw [if_neg (by decide), if_neg (by decide), if_pos (by decide),
      if_pos ⟨rfl, c, h1, h2⟩]

/-- Witness for C9: the first two conjuncts applied at the concrete lexer
state positioned on the input `-1`. -/
theorem C9_minus_digit_witness :
    (Lexer.nextTokenValue '-'
        { path := 0, input := ['-', '1'], index := 0, line := 1, column := 1
          startIndex := 0, startLine := 1, startColumn := 1 } InternPool.new =
      match Lexer.readNumber
          { path := 0, input := ['-', '1'], index := 0, line := 1, column := 1
            startIndex := 0, startLine := 1, startColumn := 1 } with
      | .ok (v, l') => .ok (v, l', InternPool.new)
      | .error e => .error e) ∧
    (∃ lit, TokenValue.literal (.int (-1)) = .literal lit) := by
  constructor
  · exact C9_minus_digit_lexes_negative_number.1 _ InternPool.new '1' rfl (by decide)
  · exact C9_minus_digit_lexes_negative_number.2.1
      { path := 0, input := ['-', '1'], index := 0, line := 1, column := 1
        startIndex := 0, startLine := 1, startColumn := 1 }
      (.literal (.int (-1)))
      { path := 0, input := ['-', '1'], index := 2, line := 1, column := 3
        startIndex := 0, startLine := 1, startColumn := 1 }
      rfl

/-! ## Syntactic AST (src/syntax_ast.rs)

The parser modules (src/syntactic_parser/) treat `TokenValue::Identifier` as
carrying the identifier's `String` (matching src/syntax_ast.rs, whose names
are `String`s), while src/token.rs declares it with a `SymbolId`; the
repository is mid-refactor between the two.  The parser embedding follows
the parser modules: its token type `PToken` carries the string. -/

/-- `BinaryOp` from src/syntax_ast.rs. -/
inductive BinaryOp where
  | Plus | Minus | Mul | Div | Mod
  | LeftShift | RightShift | BitAnd | BitOr | BitXor
  | Gt | Ge | Lt | Le | Eq | NotEq
  | LogicalAnd | LogicalOr | Indexing | FieldAccess
deriving DecidableEq

/-- `UnaryOp` from src/syntax_ast.rs. -/
inductive UnaryOp where
  | LogicalNot | BitNot | Dereference | AddressOf | Negate
deriving DecidableEq

mutual

/-- `Expression` from src/syntax_ast.rs. -/
inductive Expression where
  | mk (value : ExpressionValue) (span : TokenSpan)

/-- `ExpressionValue` from src/syntax_ast.rs. -/
inductive ExpressionValue where
  | binary (b : BinaryExpr)
  | unary (u : UnaryExpr)
  | call (c : CallExpr)
  | literal (lit : AstLiteral)
  | identifier (name : List String)

/-- `Binary` from src/syntax_ast.rs. -/
inductive BinaryExpr where
  | mk (left : Expression) (right : Expression) (op : BinaryOp)

/-- `Unary` from src/syntax_ast.rs. -/
inductive UnaryExpr where
  | mk (operand : Expression) (op : UnaryOp)

/-- `Call` from src/syntax_ast.rs. -/
inductive CallExpr where
  | mk (function : Expression) (args : List Expression)

/-- `syntax_ast::Literal`; the `Struct` map is an association list with
newest-first lookup (the observable behaviour of `HashMap::insert`). -/
inductive AstLiteral where
  | string (s : String)
  | uint (n : Nat)
  | int (i : Int)
  | float (f : FloatLit)
  | bool (b : Bool)
  | array (elems : List Expression)
  | struct (fields : List (String × Expression))

end

/-! ## Syntactic parser state (src/syntactic_parser/mod.rs, utils.rs) -/

/-- The parser-side token value: the parser modules read identifiers as
strings (see the note above). -/
inductive PTokenValue where
  | identifier (name : String)
  | literal (lit : Literal)
  | keyword (t : TokenType)
deriving DecidableEq

/-- A token as the parser consumes it. -/
structure PToken where
  value : PTokenValue
  span : TokenSpan
deriving DecidableEq

/-- `syntactic_parser::ErrorType`.  The source's `TypeAnnotation` variant is
named `TypeAnnot` here; the payloads of `ModuleSchema(serde_json::Error)` and
`Io(io::Error)` are dropped (no claim concerns them). -/
inductive ParseErrorType where
  | Name | Module | Import | LineEnd | TypeDefinition | Declaration
  | TypeAnnot | Expression | Statement | Conditional | Function | Match
  | ModuleSchema | ModuleNotFound | Io
deriving DecidableEq

/-- `syntactic_parser::Error`. -/
structure ParseError where
  typ : ParseErrorType
  msg : String
  token : Option PToken
deriving DecidableEq

/-- The `SyntacticParser` struct: token buffer and cursor. -/
structure SyntacticParser where
  tokens : List PToken
  index : Nat
deriving DecidableEq

/-- `SyntacticParser::peek`. -/
def SyntacticParser.peek (p : SyntacticParser) : Option PToken :=
  p.tokens[p.index]?

/-- `SyntacticParser::back` (`self.tokens[self.index - 1]`).  The source
panics when `index = 0` or the cursor ran past the end; the `getD` default
stands for that unreachable panic (every call site runs after at least one
`advance`). -/
def SyntacticParser.back (p : SyntacticParser) : PToken :=
  (p.tokens[p.index - 1]?).getD
    { value := .keyword .Comma, span := { line := 0, column := 0, index := 0, size := 0 } }

/-- `SyntacticParser::advance`. -/
def SyntacticParser.advance (p : SyntacticParser) : SyntacticParser :=
  { p with index := p.index + 1 }

/-- `SyntacticParser::error`. -/
def SyntacticParser.error (p : SyntacticParser) (typ : ParseErrorType)
    (msg : String) : ParseError :=
  { typ := typ, msg := msg, token := p.peek }

/-- `SyntacticParser::is_keyword`. -/
def SyntacticParser.isKeyword (p : SyntacticParser) (kw : TokenType) : Bool :=
  match p.peek with
  | some t =>
      match t.value with
      | .keyword k => k == kw
      | _ => false
  | none => false

/-- `SyntacticParser::is_identifier`. -/
def SyntacticParser.isIdentifier (p : SyntacticParser) : Option String :=
  match p.peek with
  | some t =>
      match t.value with
      | .identifier id => some id
      | _ => none
  | none => none

/-- `SyntacticParser::is_uint`. -/
def SyntacticParser.isUint (p : SyntacticParser) : Option Nat :=
  match p.peek with
  | some t =>
      match t.value with
      | .literal (.uint n) => some n
      | _ => none
  | none => none

/-- The result of a parser step.  `outOfFuel` is the bail-out of the fuel
parameter that makes the mutual recursion structural; it is never reached in
the evaluations below (each loop iteration of the source consumes input or
errors). -/
inductive PResult (α : Type) where
  | ok (value : α)
  | error (e : ParseError)
  | outOfFuel
deriving DecidableEq

/-- The token-to-syntax-tree literal conversion inside `parse_prefix`. -/
def convertLiteral : Literal → AstLiteral
  | .uint n => .uint n
  | .int i => .int i
  | .float f => .float f
  | .string s => .string s

/-- `SyntacticParser::is_postfix_op` (src/syntactic_parser/expression.rs
lines 136-141): `(`, `[` (named `OpenBrace` in the table) and `{` (named
`OpenBracket`). -/
def isPostfixOp (punc : TokenType) : Bool :=
  match punc with
  | .OpenParen | .OpenBrace | .OpenBracket => true
  | _ => false

/-- `SyntacticParser::match_infix_operator` (src/syntactic_parser/expression.rs
lines 211-234). -/
def matchInfixOperator (infixTok : TokenType) : Option (Nat × BinaryOp) :=
  match infixTok with
  | .Dot => some (100, .FieldAccess)
  | .Mul => some (90, .Mul)
  | .Div => some (90, .Div)
  | .Modulo => some (90, .Mod)
  | .Plus => some (80, .Plus)
  | .Minus => some (80, .Minus)
  | .LeftShift => some (70, .LeftShift)
  | .RightShift => some (70, .RightShift)
  | .BitAnd => some (60, .BitAnd)
  | .BitOr => some (60, .BitOr)
  | .BitXor => some (60, .BitXor)
  | .Eq => some (50, .Eq)
  | .NotEq => some (50, .NotEq)
  | .Gt => some (50, .Gt)
  | .Ge => some (50, .Ge)
  | .Lt => some (50, .Lt)
  | .Le => some (50, .Le)
  | .LogicalAnd => some (40, .LogicalAnd)
  | .LogicalOr => some (40, .LogicalOr)
  | _ => none

/-- The `while` loop of `SyntacticParser::parse_name`
(src/syntactic_parser/utils.rs lines 124-139). -/
def parseNameLoop (fuel : Nat) (p : SyntacticParser) (name : List String) :
    PResult (List String × SyntacticParser) :=
  match fuel with
  | 0 => .outOfFuel
  | fuel + 1 =>
      if p.isKeyword .DoubleColon then
        match p.advance.isIdentifier with
        | some id => parseNameLoop fuel p.advance.advance (name ++ [id])
        | none => .error (p.advance.error .Expression "Expected identifier")
      else .ok (name, p)

/-- `SyntacticParser::parse_name`.  The source asserts (and then `unwrap`s)
that the current token is an identifier; the `none` branch models that
unreachable panic (every caller dispatches on an identifier token). -/
def parseName (p : SyntacticParser) : PResult (List String × SyntacticParser) :=
  match p.isIdentifier with
  | some id => parseNameLoop (p.tokens.length + 1) p.advance [id]
  | none => .error (p.error .Expression "Expected identifier")

/-- `HashMap::insert` on the struct-literal field map: newest binding wins on
lookup. -/
def insertField (fields : List (String × Expression)) (k : String)
    (v : Expression) : List (String × Expression) :=
  (k, v) :: fields

/-! ## The Pratt expression parser (src/syntactic_parser/expression.rs)

Every function destructures its fuel and passes the predecessor to every
callee, making the mutual recursion structural on fuel. -/

mutual

/-- `SyntacticParser::pratt_parse` (src/syntactic_parser/expression.rs lines
175-209): parse a prefix, then run the operator loop. -/
def prattParse (fuel : Nat) (leftPrecedence : Nat) (p : SyntacticParser) :
    PResult (Expression × SyntacticParser) :=
  match fuel with
  | 0 => .outOfFuel
  | fuel + 1 =>
      match parsePrefixExpr fuel p with
      | .error e => .error e
      | .outOfFuel => .outOfFuel
      | .ok (exp, p1) => prattLoop fuel leftPrecedence exp p1

/-- The `loop` of `pratt_parse`, kept exactly as written: the operator token
is consumed by the first `advance` even when the loop then stops, and the
infix path runs a second `advance` before parsing the right-hand side. -/
def prattLoop (fuel : Nat) (leftPrecedence : Nat) (exp : Expression)
    (p : SyntacticParser) : PResult (Expression × SyntacticParser) :=
  match fuel with
  | 0 => .outOfFuel
  | fuel + 1 =>
      match p.peek with
      | none => .ok (exp, p)
      | some token =>
          let start := token.span
          let p1 := p.advance
          match token.value with
          | .keyword punc =>
              if isPostfixOp punc then
                match parsePostfixExpr fuel punc exp p1 with
                | .error e => .error e
                | .outOfFuel => .outOfFuel
                | .ok (exp', p2) => prattLoop fuel leftPrecedence exp' p2
              else
                match matchInfixOperator punc with
                | none => .ok (exp, p1)
                | some (precedence, op) =>
                    if precedence < leftPrecedence then .ok (exp, p1)
                    else
                      match prattParse fuel precedence p1.advance with
                      | .error e => .error e
                      | .outOfFuel => .outOfFuel
                      | .ok (right, p3) =>
                          prattLoop fuel leftPrecedence
                            (.mk (.binary (.mk exp right op))
                                 (p3.back.span.sub start)) p3
          | _ => .error (p1.error .Expression "Expected an operator")

/-- `SyntacticParser::parse_prefix` (src/syntactic_parser/expression.rs lines
104-134). -/
def parsePrefixExpr (fuel : Nat) (p : SyntacticParser) :
    PResult (Expression × SyntacticParser) :=
  match fuel with
  | 0 => .outOfFuel
  | fuel + 1 =>
      match p.peek with
      | none => .error (p.error .Expression "No expression found")
      | some token =>
          let start := token.span
          match token.value with
          | .identifier _ =>
              match parseName p with
              | .error e => .error e
              | .outOfFuel => .outOfFuel
              | .ok (name, p1) =>
                  .ok (.mk (.identifier name) (start.sub p1.back.span), p1)
          | .literal lit =>
              .ok (.mk (.literal (convertLiteral lit))
                       (start.sub p.advance.back.span), p.advance)
          | .keyword punc =>
              match punc with
              | .OpenParen => parseParen fuel p.advance
              | .OpenBracket => parseArrayLiteral fuel p.advance
              | _ => parseInfixOp fuel punc p.advance

/-- `SyntacticParser::parse_paren` (src/syntactic_parser/expression.rs lines
13-21). -/
def parseParen (fuel : Nat) (p : SyntacticParser) :
    PResult (Expression × SyntacticParser) :=
  match fuel with
  | 0 => .outOfFuel
  | fuel + 1 =>
      match prattParse fuel 0 p with
      | .error e => .error e
      | .outOfFuel => .outOfFuel
      | .ok (exp, p1) =>
          if p1.isKeyword .CloseParen then .ok (exp, p1.advance)
          else .error (p1.error .Expression "Unclosed parenthesis")

/-- The `loop` of `SyntacticParser::parse_expression_list`
(src/syntactic_parser/expression.rs lines 23-41). -/
def parseExpressionListLoop (fuel : Nat) (endTok : TokenType)
    (acc : List Expression) (p : SyntacticParser) :
    PResult (List Expression × SyntacticParser) :=
  match fuel with
  | 0 => .outOfFuel
  | fuel + 1 =>
      if p.isKeyword endTok then .ok (acc, p)
      else
        match prattParse fuel 0 p with
        | .error e => .error e
        | .outOfFuel => .outOfFuel
        | .ok (e, p1) =>
            if p1.isKeyword endTok then .ok (acc ++ [e], p1)
            else if p1.isKeyword .Comma then
              parseExpressionListLoop fuel endTok (acc ++ [e]) p1.advance
            else .error (p1.error .Expression "Expected comma")

/-- `SyntacticParser::parse_expression_list`: run the loop, then consume the
end token. -/
def parseExpressionList (fuel : Nat) (endTok : TokenType) (p : SyntacticParser) :
    PResult (List Expression × SyntacticParser) :=
  match fuel with
  | 0 => .outOfFuel
  | fuel + 1 =>
      match parseExpressionListLoop fuel endTok [] p with
      | .error e => .error e
      | .outOfFuel => .outOfFuel
      | .ok (list, p1) => .ok (list, p1.advance)

/-- `SyntacticParser::parse_array_literal` (src/syntactic_parser/expression.rs
lines 43-53). -/
def parseArrayLiteral (fuel : Nat) (p : SyntacticParser) :
    PResult (Expression × SyntacticParser) :=
  match fuel with
  | 0 => .outOfFuel
  | fuel + 1 =>
      match parseExpressionList fuel .CloseBracket p with
      | .error e => .error e
      | .outOfFuel => .outOfFuel
      | .ok (list, p1) =>
          .ok (.mk (.literal (.array list)) (p1.back.span.sub p.back.span), p1)

/-- The `loop` of `SyntacticParser::parse_struct_literal`
(src/syntactic_parser/expression.rs lines 55-81).  Note the source does not
advance past the separating comma (kept as written; the fuel bail covers the
resulting infinite loop, which no evaluation below reaches). -/
def parseStructLiteralLoop (fuel : Nat) (acc : List (String × Expression))
    (p : SyntacticParser) :
    PResult (List (String × Expression) × SyntacticParser) :=
  match fuel with
  | 0 => .outOfFuel
  | fuel + 1 =>
      if p.isKeyword .CloseBracket then .ok (acc, p)
      else
        match p.isIdentifier with
        | none => .error (p.error .Expression "Expected field name")
        | some field =>
            if p.advance.isKeyword .Colon then
              match prattParse fuel 0 p.advance.advance with
              | .error e => .error e
              | .outOfFuel => .outOfFuel
              | .ok (exp, p2) =>
                  if p2.isKeyword .CloseBracket then
                    .ok (insertField acc field exp, p2)
                  else if p2.isKeyword .Comma then
                    parseStructLiteralLoop fuel (insertField acc field exp) p2
                  else .error (p2.error .Expression "Expected comma")
            else .error (p.advance.error .Expression "Expected colon")

/-- `SyntacticParser::parse_struct_literal`: run the loop, then consume the
closing token. -/
def parseStructLiteral (fuel : Nat) (p : SyntacticParser) :
    PResult (List (String × Expression) × SyntacticParser) :=
  match fuel with
  | 0 => .outOfFuel
  | fuel + 1 =>
      match parseStructLiteralLoop fuel [] p with
      | .error e => .error e
      | .outOfFuel => .outOfFuel
      | .ok (fields, p1) => .ok (fields, p1.advance)

/-- `SyntacticParser::parse_infix_op` (src/syntactic_parser/expression.rs
lines 83-102); despite its name this is the *unary prefix* parser. -/
def parseInfixOp (fuel : Nat) (punc : TokenType) (p : SyntacticParser) :
    PResult (Expression × SyntacticParser) :=
  match fuel with
  | 0 => .outOfFuel
  | fuel + 1 =>
      match
        (match punc with
         | .Minus => some UnaryOp.Negate
         | .Mul => some UnaryOp.Dereference
         | .BitAnd => some UnaryOp.AddressOf
         | .BitNot => some UnaryOp.BitNot
         | .LogicalNot => some UnaryOp.LogicalNot
         | _ => none) with
      | none => .error (p.error .Expression "Invalid unary operator")
      | some op =>
          match prattParse fuel 100 p with
          | .error e => .error e
          | .outOfFuel => .outOfFuel
          | .ok (operand, p1) =>
              .ok (.mk (.unary (.mk operand op)) (p1.back.span.sub p.back.span), p1)

/-- `SyntacticParser::parse_postfix` (src/syntactic_parser/expression.rs
lines 143-173).  The wildcard branch models the source's
`panic!("Not a postfix operator")`, unreachable behind `is_postfix_op`. -/
def parsePostfixExpr (fuel : Nat) (punc : TokenType) (left : Expression)
    (p : SyntacticParser) : PResult (Expression × SyntacticParser) :=
  match fuel with
  | 0 => .outOfFuel
  | fuel + 1 =>
      match punc with
      | .OpenParen =>
          match parseExpressionList fuel .CloseParen p with
          | .error e => .error e
          | .outOfFuel => .outOfFuel
          | .ok (args, p1) =>
              .ok (.mk (.call (.mk left args)) (p1.back.span.sub p.back.span), p1)
      | .OpenBrace =>
          match prattParse fuel 0 p with
          | .error e => .error e
          | .outOfFuel => .outOfFuel
          | .ok (idx, p1) =>
              if p1.isKeyword .CloseParen then
                .ok (.mk (.binary (.mk left idx .Indexing))
                         (p1.advance.back.span.sub p.back.span), p1.advance)
              else .error (p1.error .Expression "Expected close bracket")
      | .OpenBracket =>
          match parseStructLiteral fuel p with
          | .error e => .error e
          | .outOfFuel => .outOfFuel
          | .ok (fields, p1) =>
              .ok (.mk (.literal (.struct fields)) (p1.back.span.sub p.back.span), p1)
      | _ => .error (p.error .Expression "Not a postfix operator")

end

/-- `SyntacticParser::parse_expression`: `pratt_parse(0)`. -/
def parseExpression (fuel : Nat) (p : SyntacticParser) :
    PResult (Expression × SyntacticParser) :=
  prattParse fuel 0 p

/-! ## Type annotations (src/syntactic_parser/type_annotation.rs) -/

/-- `TypeModifierType` from src/syntax_ast.rs. -/
inductive TypeModifierType where
  | pointer
  | slice
  | array (n : Nat)
deriving DecidableEq

/-- `TypeModifier` from src/syntax_ast.rs. -/
structure TypeModifier where
  mutable : Bool
  typ : TypeModifierType
deriving DecidableEq

mutual

/-- `TypeAnnot` as the parser builds it (base, modifiers, span). -/
inductive TypeAnnot where
  | mk (base : TypeAnnotBase) (modifiers : List TypeModifier) (span : TokenSpan)

/-- `TypeAnnotBase`: a dotted name or a function signature. -/
inductive TypeAnnotBase where
  | normal (name : List String)
  | function (sig : FunctionSig)

/-- `FunctionSig`: argument types and optional return type. -/
inductive FunctionSig where
  | mk (args : List TypeAnnot) (ret : Option TypeAnnot)

end

/-- `SyntacticParser::is_mutable` (src/syntactic_parser/utils.rs lines
90-101). -/
def SyntacticParser.isMutable (p : SyntacticParser) : PResult Bool :=
  if p.isKeyword .Let then .ok false
  else if p.isKeyword .Var then .ok true
  else .error (p.error .TypeAnnot "Type annotations must specify mutability")

/-- `SyntacticParser::parse_pointer` (src/syntactic_parser/type_annotation.rs
lines 77-84). -/
def parsePointer (p : SyntacticParser) : PResult (TypeModifier × SyntacticParser) :=
  match p.isMutable with
  | .ok mutable => .ok ({ mutable := mutable, typ := .pointer }, p.advance)
  | .error e => .error e
  | .outOfFuel => .outOfFuel

/-- `SyntacticParser::parse_array_or_slice`
(src/syntactic_parser/type_annotation.rs lines 86-107). -/
def parseArrayOrSlice (p : SyntacticParser) : PResult (TypeModifier × SyntacticParser) :=
  match
    (match p.isUint with
     | some uint => (true, uint, p.advance)
     | none => (false, 0, p)) with
  | (isArray, arraySize, p1) =>
      if p1.isKeyword .CloseBrace then
        match p1.advance.isMutable with
        | .ok mutable =>
            .ok ({ mutable := mutable
                   typ := if isArray then .array arraySize else .slice },
                 p1.advance.advance)
        | .error e => .error e
        | .outOfFuel => .outOfFuel
      else .error (p1.error .TypeAnnot "Expected close brace")

/-- `SyntacticParser::parse_type_modifier`
(src/syntactic_parser/type_annotation.rs lines 67-75): `*` or `[` (named
`OpenBrace` in the table). -/
def parseTypeModifier (p : SyntacticParser) (keyword : TokenType) :
    PResult (TypeModifier × SyntacticParser) :=
  match keyword with
  | .Mul => parsePointer p
  | .OpenBrace => parseArrayOrSlice p
  | _ => .error (p.error .TypeAnnot "Expected a type annotation")

mutual

/-- The `loop` of `SyntacticParser::parse_type_annotation`
(src/syntactic_parser/type_annotation.rs lines 7-30).  `start` is the token
peeked at entry; the source `unwrap`s it only on the identifier exit path,
where the first loop iteration has already ruled out `none` (the `getD`
default models that unreachable panic). -/
def parseTypeAnnotationLoop (fuel : Nat) (start : Option PToken)
    (modifiers : List TypeModifier) (p : SyntacticParser) :
    PResult (TypeAnnot × SyntacticParser) :=
  match fuel with
  | 0 => .outOfFuel
  | fuel + 1 =>
      match p.peek with
      | none => .error (p.error .TypeAnnot "Expected a type annotation")
      | some token =>
          match token.value with
          | .identifier _ =>
              match parseBase fuel p with
              | .error e => .error e
              | .outOfFuel => .outOfFuel
              | .ok (base, p1) =>
                  .ok (.mk base modifiers
                        (token.span.sub
                          ((start.getD
                            { value := .keyword .Comma
                              span := { line := 0, column := 0, index := 0, size := 0 } }).span)),
                       p1)
          | .keyword kw =>
              match parseTypeModifier p.advance kw with
              | .error e => .error e
              | .outOfFuel => .outOfFuel
              | .ok (m, p1) =>
                  parseTypeAnnotationLoop fuel start (modifiers ++ [m]) p1
          | .literal _ =>
              .error (p.error .TypeAnnot "Expected a type annotation")

/-- `SyntacticParser::parse_type_annotation`. -/
def parseTypeAnnotation (fuel : Nat) (p : SyntacticParser) :
    PResult (TypeAnnot × SyntacticParser) :=
  match fuel with
  | 0 => .outOfFuel
  | fuel + 1 => parseTypeAnnotationLoop fuel p.peek [] p

/-- The argument loop of `SyntacticParser::parse_base`
(src/syntactic_parser/type_annotation.rs lines 43-50). -/
def parseBaseArgsLoop (fuel : Nat) (acc : List TypeAnnot) (p : SyntacticParser) :
    PResult (List TypeAnnot × SyntacticParser) :=
  match fuel with
  | 0 => .outOfFuel
  | fuel + 1 =>
      if p.isKeyword .CloseParen then .ok (acc, p)
      else
        match parseTypeAnnotation fuel p with
        | .error e => .error e
        | .outOfFuel => .outOfFuel
        | .ok (t, p1) =>
            if p1.isKeyword .Comma then
              parseBaseArgsLoop fuel (acc ++ [t]) p1.advance
            else .ok (acc ++ [t], p1)

/-- `SyntacticParser::parse_base` (src/syntactic_parser/type_annotation.rs
lines 32-65). -/
def parseBase (fuel : Nat) (p : SyntacticParser) :
    PResult (TypeAnnotBase × SyntacticParser) :=
  match fuel with
  | 0 => .outOfFuel
  | fuel + 1 =>
      if ¬ p.isKeyword .Fn then
        match parseName p with
        | .error e => .error e
        | .outOfFuel => .outOfFuel
        | .ok (name, p1) => .ok (.normal name, p1)
      else
        if p.advance.isKeyword .OpenParen then
          match parseBaseArgsLoop fuel [] p.advance.advance with
          | .error e => .error e
          | .outOfFuel => .outOfFuel
          | .ok (args, p2) =>
              if p2.isKeyword .CloseParen then
                if p2.advance.isKeyword .ReturnType then
                  match parseTypeAnnotation fuel p2.advance.advance with
                  | .error e => .error e
                  | .outOfFuel => .outOfFuel
                  | .ok (ret, p4) => .ok (.function (.mk args (some ret)), p4)
                else .ok (.function (.mk args none), p2.advance)
              else .error (p2.error .TypeAnnot "Expected close paren")
        else .error (p.advance.error .TypeAnnot "Expected function argument types")

end

/-! ## Type definitions (src/syntactic_parser/type_definition.rs) -/

/-- `HashMap::contains_key` on a field association list. -/
def containsKey {α : Type} (l : List (String × α)) (k : String) : Bool :=
  l.any (fun e => e.1 == k)

/-- `SyntacticParser::parse_struct_field`
(src/syntactic_parser/type_definition.rs lines 97-111). -/
def parseStructField (fuel : Nat) (p : SyntacticParser) :
    PResult ((String × TypeAnnot) × SyntacticParser) :=
  match p.isIdentifier with
  | none => .error (p.error .TypeDefinition "Expected an identifier")
  | some id =>
      if p.advance.isKeyword .Colon then
        match parseTypeAnnotation fuel p.advance.advance with
        | .error e => .error e
        | .outOfFuel => .outOfFuel
        | .ok (t, p2) => .ok ((id, t), p2)
      else .error (p.advance.error .TypeDefinition "Expected colon after an identifier")

/-- The `while` loop of `SyntacticParser::parse_struct_body`
(src/syntactic_parser/type_definition.rs lines 79-93): note the `break` when
the token after a field is not a comma, which exits the loop *successfully*
wherever the cursor stands; and that no branch consumes the closing `}`. -/
def parseStructBodyLoop (fuel : Nat) (fields : List (String × TypeAnnot))
    (p : SyntacticParser) :
    PResult (List (String × TypeAnnot) × SyntacticParser) :=
  match fuel with
  | 0 => .outOfFuel
  | fuel + 1 =>
      if p.isKeyword .CloseBracket then .ok (fields, p)
      else
        match parseStructField fuel p with
        | .error e => .error e
        | .outOfFuel => .outOfFuel
        | .ok ((name, fieldType), p1) =>
            if containsKey fields name then
              .error (p1.error .TypeDefinition "Duplicated struct field")
            else
              if p1.isKeyword .Comma then
                parseStructBodyLoop fuel (fields ++ [(name, fieldType)]) p1.advance
              else .ok (fields ++ [(name, fieldType)], p1)

/-- `SyntacticParser::parse_struct_body`
(src/syntactic_parser/type_definition.rs lines 74-95): consume the `{`, run
the loop, and return without touching the token that ended the loop. -/
def parseStructBody (fuel : Nat) (p : SyntacticParser) :
    PResult (List (String × TypeAnnot) × SyntacticParser) :=
  if p.isKeyword .OpenBracket then parseStructBodyLoop fuel [] p.advance
  else .error (p.error .TypeDefinition "Expected open brace")

/-- `SyntacticParser::parse_enum_field`
(src/syntactic_parser/type_definition.rs lines 167-181): a variant without
`=` gets `prev + 1`; an explicit value is read with `is_uint` (and the
source does not advance past it). -/
def parseEnumField (p : SyntacticParser) (prev : Nat) :
    PResult ((String × Nat) × SyntacticParser) :=
  match p.isIdentifier with
  | none => .error (p.error .TypeDefinition "Expected an identifier")
  | some id =>
      if p.advance.isKeyword .Eq then
        match p.advance.advance.isUint with
        | none =>
            .error (p.advance.advance.error .TypeDefinition
              "Expected a positive integer value")
        | some value => .ok ((id, value), p.advance.advance)
      else .ok ((id, prev + 1), p.advance)

/-- The `while` loop of `SyntacticParser::parse_enum_body`
(src/syntactic_parser/type_definition.rs lines 137-162), with `prev_value`
starting at 0 in the caller. -/
def parseEnumBodyLoop (fuel : Nat) (fields : List (String × Nat))
    (values : List Nat) (prevValue : Nat) (p : SyntacticParser) :
    PResult (List (String × Nat) × SyntacticParser) :=
  match fuel with
  | 0 => .outOfFuel
  | fuel + 1 =>
      if p.isKeyword .CloseBracket then .ok (fields, p)
      else
        match parseEnumField p prevValue with
        | .error e => .error e
        | .outOfFuel => .outOfFuel
        | .ok ((name, value), p1) =>
            if containsKey fields name then
              .error (p1.error .TypeDefinition "Duplicated enum field")
            else if values.contains value then
              .error (p1.error .TypeDefinition "Duplicated enum value")
            else
              if p1.isKeyword .Comma then
                parseEnumBodyLoop fuel (fields ++ [(name, value)])
                  (values ++ [value]) value p1.advance
              else if p1.isKeyword .CloseBracket then
                .ok (fields ++ [(name, value)], p1)
              else .error (p1.error .TypeDefinition "Expected close brace")

/-- `SyntacticParser::parse_enum_body`
(src/syntactic_parser/type_definition.rs lines 129-165): consume the `{`,
run the loop with `prev_value = 0`, and — unlike `parse_struct_body` —
consume the closing `}` with the final `advance` before returning. -/
def parseEnumBody (fuel : Nat) (p : SyntacticParser) :
    PResult (List (String × Nat) × SyntacticParser) :=
  if p.isKeyword .OpenBracket then
    match parseEnumBodyLoop fuel [] [] 0 p.advance with
    | .error e => .error e
    | .outOfFuel => .outOfFuel
    | .ok (fields, p1) => .ok (fields, p1.advance)
  else .error (p.error .TypeDefinition "Expected open brace")

/-! ## Parser claims -/

/-- A one-character token at character index `i` of line 1 (the spans the
lexer produces for the single-character tokens used below). -/
def tok1 (v : PTokenValue) (i : Nat) : PToken :=
  { value := v, span := { line := 1, column := i + 1, index := i, size := 1 } }

/-- The token stream of the source text `1 + 2 * 3` (exactly what
`Lexer::lex` produces for it, with identifiers read back as strings). -/
def c1Tokens : List PToken :=
  [tok1 (.literal (.uint 1)) 0,
   tok1 (.keyword .Plus) 2,
   tok1 (.literal (.uint 2)) 4,
   tok1 (.keyword .Mul) 6,
   tok1 (.literal (.uint 3)) 8]

/-- The token stream of the source text `a + b;`. -/
def c1TokensAB : List PToken :=
  [tok1 (.identifier "a") 0,
   tok1 (.keyword .Plus) 2,
   tok1 (.identifier "b") 4,
   tok1 (.keyword .Semicolon) 5]

/-- C1 (code bug).  `pratt_parse` advances past the infix operator as soon as
it peeks it (expression.rs line 182) and then advances *again* before parsing
the right-hand side (line 197), so the first token of the right-hand side is
skipped: entered with minimum precedence 0 on the tokens of `1 + 2 * 3`, it
returns `Binary(Plus, UInt(1), Unary(Dereference, UInt(3)))` — the token `2`
is silently dropped and `*` is parsed as a prefix dereference — not the
claimed `Binary(Plus, UInt(1), Binary(Mul, UInt(2), UInt(3)))`.  The same
double advance also breaks the claimed stop behaviour: the second conjunct
shows that `a + b ;` (the spec's own boundary scenario) fails with
"Invalid unary operator" because the parser lands on `;` as a prefix. -/
theorem C1_pratt_skips_rhs_token :
    prattParse 32 0 { tokens := c1Tokens, index := 0 } =
      .ok (.mk (.binary (.mk
              (.mk (.literal (.uint 1)) { line := 1, column := 1, index := 0, size := 1 })
              (.mk (.unary (.mk
                    (.mk (.literal (.uint 3)) { line := 1, column := 9, index := 8, size := 1 })
                    .Dereference))
                  { line := 1, column := 9, index := 8, size := 3 })
              .Plus))
            { line := 1, column := 9, index := 8, size := 7 },
          { tokens := c1Tokens, index := 5 }) ∧
    prattParse 32 0 { tokens := c1TokensAB, index := 0 } =
      .error { typ := .Expression, msg := "Invalid unary operator", token := none } :=
  ⟨rfl, rfl⟩

/-- The token stream of the enum body `{ A }`. -/
def c4Tokens : List PToken :=
  [tok1 (.keyword .OpenBracket) 0,
   tok1 (.identifier "A") 1,
   tok1 (.keyword .CloseBracket) 2]

/-- The token stream of the enum body `{ A , B }`. -/
def c4TokensAB : List PToken :=
  [tok1 (.keyword .OpenBracket) 0,
   tok1 (.identifier "A") 1,
   tok1 (.keyword .Comma) 2,
   tok1 (.identifier "B") 3,
   tok1 (.keyword .CloseBracket) 4]

/-- C4 counterexample.  Parsing the enum body `{ A }` assigns the first
variant, whose value is omitted, the value 1 — not 0 as the claim states
(`prev_value` starts at 0 and an omitted value is `prev + 1`). -/
theorem C4_enum_first_variant_counterexample :
    parseEnumBody 16 { tokens := c4Tokens, index := 0 } =
      .ok ([("A", 1)], { tokens := c4Tokens, index := 3 }) ∧
    (1 : Nat) ≠ 0 :=
  ⟨rfl, by decide⟩

/-- C4 as amended (corrected).  A variant whose value is omitted receives the
previous value plus one, with the count starting at **1** for the first
variant: `parse_enum_field` returns `prev + 1` whenever the token after the
variant name is not `=`, `parse_enum_body` seeds `prev_value` with 0, and
concretely `{ A }` yields `A ↦ 1` and `{ A , B }` yields `A ↦ 1, B ↦ 2`. -/
theorem C4_enum_default_starts_at_one :
    (∀ (p : SyntacticParser) (prev : Nat) (name : String),
      p.isIdentifier = some name →
      p.advance.isKeyword .Eq = false →
      parseEnumField p prev = .ok ((name, prev + 1), p.advance)) ∧
    parseEnumBody 16 { tokens := c4Tokens, index := 0 } =
      .ok ([("A", 1)], { tokens := c4Tokens, index := 3 }) ∧
    parseEnumBody 16 { tokens := c4TokensAB, index := 0 } =
      .ok ([("A", 1), ("B", 2)], { tokens := c4TokensAB, index := 5 }) := by
  refine ⟨?_, rfl, rfl⟩
  intro p prev name h1 h2
  unfold parseEnumField
  rw [h1, h2]
  simp

/-- Witness for C4's amended claim: `parse_enum_field` at a concrete state
(cursor on `Z` followed by `}`) with `prev = 7` yields `Z ↦ 8`. -/
theorem C4_enum_default_witness :
    parseEnumField
        { tokens := [tok1 (.identifier "Z") 0, tok1 (.keyword .CloseBracket) 1]
          index := 0 } 7 =
      .ok (("Z", 8),
           SyntacticParser.advance
             { tokens := [tok1 (.identifier "Z") 0, tok1 (.keyword .CloseBracket) 1]
               index := 0 }) :=
  C4_enum_default_starts_at_one.1
    { tokens := [tok1 (.identifier "Z") 0, tok1 (.keyword .CloseBracket) 1]
      index := 0 } 7 "Z" rfl rfl

/-- The token stream `{ a : T x` — a struct body whose field is not followed
by a comma or a closing brace. -/
def c10BadTokens : List PToken :=
  [tok1 (.keyword .OpenBracket) 0,
   tok1 (.identifier "a") 1,
   tok1 (.keyword .Colon) 2,
   tok1 (.identifier "T") 3,
   tok1 (.identifier "x") 4]

/-- The token stream of the struct body `{ a : T }`. -/
def c10GoodTokens : List PToken :=
  [tok1 (.keyword .OpenBracket) 0,
   tok1 (.identifier "a") 1,
   tok1 (.keyword .Colon) 2,
   tok1 (.identifier "T") 3,
   tok1 (.keyword .CloseBracket) 4]

/-- The token stream of the struct body `{ a : T , }`. -/
def c10CommaTokens : List PToken :=
  [tok1 (.keyword .OpenBracket) 0,
   tok1 (.identifier "a") 1,
   tok1 (.keyword .Colon) 2,
   tok1 (.identifier "T") 3,
   tok1 (.keyword .Comma) 4,
   tok1 (.keyword .CloseBracket) 5]

/-- C10 counterexample.  `parse_struct_body` returns successfully on
`{ a : T x` — its loop `break`s when the token after a field is not a comma —
leaving the parser at the identifier `x`, not at a closing `}`; so "whenever
parse_struct_body returns successfully the position is exactly at the closing
`}`" is false as stated. -/
theorem C10_struct_body_missing_comma_counterexample :
    parseStructBody 16 { tokens := c10BadTokens, index := 0 } =
      .ok ([("a", .mk (.normal ["T"]) []
              { line := 1, column := 4, index := 3, size := 1 })],
           { tokens := c10BadTokens, index := 4 }) ∧
    SyntacticParser.isKeyword { tokens := c10BadTokens, index := 4 } .CloseBracket
      = false :=
  ⟨rfl, by decide⟩

/-- Two distinct keyword tests cannot both hold at one position. -/
theorem SyntacticParser.isKeyword_ne {p : SyntacticParser} {kw kw' : TokenType}
    (h : p.isKeyword kw = true) (hne : kw' ≠ kw) : p.isKeyword kw' = false := by
  cases hp : p.peek with
  | none => simp [SyntacticParser.isKeyword, hp]
  | some t =>
      cases hv : t.value with
      | keyword k =>
          have hk : k = kw := by
            have h' := h
            simp [SyntacticParser.isKeyword, hp, hv] at h'
            exact h'
          have hne' : k ≠ kw' := fun heq => hne (hk ▸ heq.symm)
          simp [SyntacticParser.isKeyword, hp, hv, hne']
      | identifier name => simp [SyntacticParser.isKeyword, hp, hv]
      | literal lit => simp [SyntacticParser.isKeyword, hp, hv]

theorem containsKey_eq_false {α : Type} {l : List (String × α)} {k : String}
    (h : k ∉ l.map Prod.fst) : containsKey l k = false := by
  simp only [containsKey, List.any_eq_false]
  intro e he
  have hne : e.1 ≠ k := fun heq => h (heq ▸ List.mem_map_of_mem Prod.fst he)
  simp [hne]

/-- A well-formed struct/union body at the current position, as the amended
claim uses the term: fields with pairwise fresh names (fresh also against
`seen`, the names already collected), separated by commas — a trailing comma
allowed — and closed by a `}`.  The predicate is indexed by the same fuel
`parse_struct_body`'s loop threads, so the i-th field is parsed with exactly
the fuel the loop passes it. -/
def StructBodyChain : Nat → List String → SyntacticParser → Prop
  | 0, _, _ => False
  | fuel + 1, seen, p =>
      p.isKeyword .CloseBracket = true ∨
      (∃ name t p1, parseStructField fuel p = .ok ((name, t), p1) ∧
        name ∉ seen ∧
        ((p1.isKeyword .Comma = true ∧
            StructBodyChain fuel (seen ++ [name]) p1.advance) ∨
         p1.isKeyword .CloseBracket = true))

/-- On every well-formed body the struct-body loop succeeds and stops with
the closing `}` as the still-unconsumed next token. -/
theorem parseStructBodyLoop_wf_stops_at_brace :
    ∀ (fuel : Nat) (fields : List (String × TypeAnnot)) (p : SyntacticParser),
      StructBodyChain fuel (fields.map Prod.fst) p →
      ∃ fields' p', parseStructBodyLoop fuel fields p = .ok (fields', p') ∧
        p'.isKeyword .CloseBracket = true := by
  intro fuel
  induction fuel with
  | zero =>
      intro fields p hchain
      simp [StructBodyChain] at hchain
  | succ fuel ih =>
      intro fields p hchain
      by_cases hcb : p.isKeyword .CloseBracket = true
      · exact ⟨fields, p, by unfold parseStructBodyLoop; rw [if_pos hcb], hcb⟩
      · rcases hchain with hclose | ⟨name, t, p1, hfield, hfresh, hrest⟩
        · exact absurd hclose hcb
        · have hdup : containsKey fields name = false := containsKey_eq_false hfresh
          rcases hrest with ⟨hcomma, hchain'⟩ | hclose1
          · obtain ⟨fields', p', hloop, hcb'⟩ :=
              ih (fields ++ [(name, t)]) p1.advance (by simpa using hchain')
            refine ⟨fields', p', ?_, hcb'⟩
            unfold parseStructBodyLoop
            rw [if_neg hcb]
            simp only [hfield, hdup, hcomma, Bool.false_eq_true, if_false, if_true]
            exact hloop
          · have hcomma1 : p1.isKeyword .Comma = false :=
              SyntacticParser.isKeyword_ne hclose1 (by decide)
            refine ⟨fields ++ [(name, t)], p1, ?_, hclose1⟩
            unfold parseStructBodyLoop
            rw [if_neg hcb]
            simp only [hfield, hdup, hcomma1, Bool.false_eq_true, if_false]

/-- Every successful run of the enum-body loop stops on the closing `}`. -/
theorem parseEnumBodyLoop_stops_at_brace :
    ∀ (fuel : Nat) (fields : List (String × Nat)) (values : List Nat)
      (prev : Nat) (p : SyntacticParser) (fields' : List (String × Nat))
      (p' : SyntacticParser),
      parseEnumBodyLoop fuel fields values prev p = .ok (fields', p') →
      p'.isKeyword .CloseBracket = true := by
  intro fuel
  induction fuel with
  | zero =>
      intro fields values prev p fields' p' h
      cases h
  | succ fuel ih =>
      intro fields values prev p fields' p' h
      unfold parseEnumBodyLoop at h
      by_cases hcb : p.isKeyword .CloseBracket = true
      · rw [if_pos hcb] at h
        simp only [PResult.ok.injEq, Prod.mk.injEq] at h
        exact h.2 ▸ hcb
      · rw [if_neg hcb] at h
        cases hf : parseEnumField p prev with
        | error e => rw [hf] at h; cases h
        | outOfFuel => rw [hf] at h; cases h
        | ok pr =>
            obtain ⟨⟨name, value⟩, p1⟩ := pr
            rw [hf] at h
            dsimp only at h
            by_cases hdup : containsKey fields name = true
            · rw [if_pos hdup] at h; cases h
            · rw [if_neg hdup] at h
              by_cases hval : values.contains value = true
              · rw [if_pos hval] at h; cases h
              · rw [if_neg hval] at h
                by_cases hcm : p1.isKeyword .Comma = true
                · rw [if_pos hcm] at h
                  exact ih _ _ _ _ _ _ h
                · rw [if_neg hcm] at h
                  by_cases hcb1 : p1.isKeyword .CloseBracket = true
                  · rw [if_pos hcb1] at h
                    simp only [PResult.ok.injEq, Prod.mk.injEq] at h
                    exact h.2 ▸ hcb1
                  · rw [if_neg hcb1] at h; cases h

/-- Every successful run of `parse_enum_body` ends one token past the
closing `}`: the state before the final `advance` peeks the `}`. -/
theorem parseEnumBody_consumes_brace :
    ∀ (fuel : Nat) (p : SyntacticParser) (fields' : List (String × Nat))
      (p' : SyntacticParser),
      parseEnumBody fuel p = .ok (fields', p') →
      ∃ p1 : SyntacticParser, p' = p1.advance ∧ p1.isKeyword .CloseBracket = true := by
  intro fuel p fields' p' h
  unfold parseEnumBody at h
  by_cases hop : p.isKeyword .OpenBracket = true
  · rw [if_pos hop] at h
    cases hloop : parseEnumBodyLoop fuel [] [] 0 p.advance with
    | error e => rw [hloop] at h; cases h
    | outOfFuel => rw [hloop] at h; cases h
    | ok pr =>
        obtain ⟨fields1, p1⟩ := pr
        rw [hloop] at h
        dsimp only at h
        simp only [PResult.ok.injEq, Prod.mk.injEq] at h
        exact ⟨p1, h.2.symm, parseEnumBodyLoop_stops_at_brace _ _ _ _ _ _ _ hloop⟩
  · rw [if_neg hop] at h
    cases h

/-- C10 as amended (corrected), each part universally quantified.
(1) For every fuel and token stream whose body is well-formed — fields with
fresh names separated by commas, a trailing comma allowed, closed by `}`
(`StructBodyChain`) — `parse_struct_body` returns successfully with the
parser positioned exactly at the closing `}`, which remains unconsumed for
the caller.  (2) In contrast, *every* successful run of `parse_enum_body`,
on any input whatsoever, ends with its loop stopped at the closing `}` and
the final `advance` consuming it (the returned state is `advance` of a state
peeking the `}`).  Success of `parse_struct_body` alone does not guarantee
the stopping token is a `}` when a comma is missing (the counterexample).
Conjuncts (3)-(6) instantiate part (1) at `{ a : T }` and `{ a : T , }`. -/
theorem C10_struct_body_brace_handling :
    (∀ (fuel : Nat) (p : SyntacticParser),
      p.isKeyword .OpenBracket = true →
      StructBodyChain fuel [] p.advance →
      ∃ fields' p', parseStructBody fuel p = .ok (fields', p') ∧
        p'.isKeyword .CloseBracket = true) ∧
    (∀ (fuel : Nat) (p : SyntacticParser) (fields' : List (String × Nat))
       (p' : SyntacticParser),
      parseEnumBody fuel p = .ok (fields', p') →
      ∃ p1 : SyntacticParser, p' = p1.advance ∧ p1.isKeyword .CloseBracket = true) ∧
    parseStructBody 16 { tokens := c10GoodTokens, index := 0 } =
      .ok ([("a", .mk (.normal ["T"]) []
              { line := 1, column := 4, index := 3, size := 1 })],
           { tokens := c10GoodTokens, index := 4 }) ∧
    SyntacticParser.isKeyword { tokens := c10GoodTokens, index := 4 } .CloseBracket
      = true ∧
    parseStructBody 16 { tokens := c10CommaTokens, index := 0 } =
      .ok ([("a", .mk (.normal ["T"]) []
              { line := 1, column := 4, index := 3, size := 1 })],
           { tokens := c10CommaTokens, index := 5 }) ∧
    SyntacticParser.isKeyword { tokens := c10CommaTokens, index := 5 } .CloseBracket
      = true := by
  refine ⟨?_, parseEnumBody_consumes_brace, rfl, by decide, rfl, by decide⟩
  intro fuel p hopen hchain
  obtain ⟨fields', p', hloop, hcb⟩ :=
    parseStructBodyLoop_wf_stops_at_brace fuel [] p.advance (by simpa using hchain)
  refine ⟨fields', p', ?_, hcb⟩
  unfold parseStructBody
  rw [if_pos hopen]
  exact hloop

/-- Witness for C10's amended claim: part (1) applied at the concrete
well-formed body `{ a : T }` (exercising the `StructBodyChain` hypothesis),
and part (2) applied at the concrete enum body `{ A }`. -/
theorem C10_struct_body_witness :
    (∃ fields' p', parseStructBody 16 { tokens := c10GoodTokens, index := 0 } =
        .ok (fields', p') ∧ p'.isKeyword .CloseBracket = true) ∧
    (∃ p1 : SyntacticParser, ({ tokens := c4Tokens, index := 3 } : SyntacticParser) = p1.advance ∧
      p1.isKeyword .CloseBracket = true) := by
  constructor
  · refine C10_struct_body_brace_handling.1 16
      { tokens := c10GoodTokens, index := 0 } (by decide) ?_
    show ({ tokens := c10GoodTokens, index := 1 } : SyntacticParser).isKeyword
        .CloseBracket = true ∨ _
    refine Or.inr ⟨"a", .mk (.normal ["T"]) []
        { line := 1, column := 4, index := 3, size := 1 },
      { tokens := c10GoodTokens, index := 4 }, rfl, by simp, Or.inr (by decide)⟩
  · exact C10_struct_body_brace_handling.2.1 16
      { tokens := c4Tokens, index := 0 } [("A", 1)]
      { tokens := c4Tokens, index := 3 } rfl

/-! ## Semantic import resolution (src/semantic_parser/mod.rs)

The semantic AST's module handles (`RwArc<Module>`) are shared pointers:
cloning yields the same handle.  The embedding is polymorphic in the handle
type `H`; equality on `H` models handle identity.  Of the syntactic
`Module`/`File` structs only the fields these two functions read are
modelled (`path` and `dependencies` of the module, `imports` of the file);
the other fields never influence them. -/

/-- The fields of `syntax_ast::Module` that import resolution reads.
`dependencies` is the declared dependency set (a set of interned ids, as
the semantic parser consumes it). -/
structure SynModule where
  path : Nat
  dependencies : List Nat
deriving DecidableEq

/-- The field of the semantic `File` that import resolution writes: the map
from import id to the shared handle of the imported module (`HashMap::insert`
modelled by prepending, newest binding winning on lookup). -/
structure SemFile (H : Type) where
  imports : List (Nat × H)

/-- The fields of the semantic `Ast` that import resolution reads. -/
structure SemAst (H : Type) where
  entry : Nat
  modules : List (Nat × H)

/-- `semantic_parser::ErrorType`; the source variants are `Import` and
`Type` (the latter renamed, `Type` being a Lean keyword). -/
inductive SemErrorType where
  | importErr
  | typeErr
deriving DecidableEq

/-- `semantic_parser::Error`. -/
structure SemError where
  typ : SemErrorType
  msg : String
  span : Span
deriving DecidableEq

/-- Lookup in a `Nat`-keyed association list (the model of
`HashMap::get`/`contains_key` on the semantic module and import maps). -/
def assocFind {α : Type} (l : List (Nat × α)) (k : Nat) : Option α :=
  match l with
  | [] => none
  | e :: rest => if e.1 = k then some e.2 else assocFind rest k

/-- The `for` loop of `resolve_module_deps`
(src/semantic_parser/mod.rs lines 163-174). -/
def resolveModuleDepsLoop {H : Type} (path : Nat) (deps : List Nat)
    (semAst : SemAst H) : Except SemError Unit :=
  match deps with
  | [] => .ok ()
  | dep :: rest =>
      if (assocFind semAst.modules dep).isSome then
        resolveModuleDepsLoop path rest semAst
      else
        .error { typ := .importErr, msg := "Dependency doesn't exist"
                 span := Span.pathOnly path }

/-- `resolve_module_deps`: every declared dependency must exist in the
top-level semantic module map. -/
def resolveModuleDeps {H : Type} (synModule : SynModule) (semAst : SemAst H) :
    Except SemError Unit :=
  resolveModuleDepsLoop synModule.path synModule.dependencies semAst

/-- The `for` loop of `resolve_file_imports`
(src/semantic_parser/mod.rs lines 176-194).  The result `none` models the
`sem_ast.modules.get(import).unwrap()` panic, which can fire only when an
imported id is declared in the dependencies but missing from the module map. -/
def resolveFileImportsLoop {H : Type} (synModule : SynModule)
    (imports : List (Nat × Span)) (semFile : SemFile H) (semAst : SemAst H) :
    Option (Except SemError (SemFile H)) :=
  match imports with
  | [] => some (.ok semFile)
  | (imp, sp) :: rest =>
      if synModule.dependencies.contains imp then
        match assocFind semAst.modules imp with
        | some handle =>
            resolveFileImportsLoop synModule rest
              { semFile with imports := (imp, handle) :: semFile.imports } semAst
        | none => none
      else
        some (.error { typ := .importErr, msg := "Importing undeclared module"
                       span := sp })

/-- `resolve_file_imports`, entered with the file's import list and its
semantic skeleton. -/
def resolveFileImports {H : Type} (synModule : SynModule)
    (synFileImports : List (Nat × Span)) (semFile : SemFile H)
    (semAst : SemAst H) : Option (Except SemError (SemFile H)) :=
  resolveFileImportsLoop synModule synFileImports semFile semAst

theorem resolveModuleDepsLoop_ok {H : Type} {path : Nat} {deps : List Nat}
    {semAst : SemAst H} (h : resolveModuleDepsLoop path deps semAst = .ok ()) :
    ∀ d ∈ deps, (assocFind semAst.modules d).isSome := by
  induction deps with
  | nil => simp
  | cons dep rest ih =>
      unfold resolveModuleDepsLoop at h
      split at h
      · rename_i hsome
        intro d hd
        rcases List.mem_cons.mp hd with hd | hd
        · exact hd ▸ hsome
        · exact ih h d hd
      · cases h

theorem assocFind_cons_self {α : Type} {l : List (Nat × α)} {k : Nat} {v : α} :
    assocFind ((k, v) :: l) k = some v := by
  unfold assocFind
  simp

theorem assocFind_cons_ne {α : Type} {l : List (Nat × α)} {k k' : Nat} {v : α}
    (h : k ≠ k') : assocFind ((k, v) :: l) k' = assocFind l k' := by
  show (if k = k' then some v else assocFind l k') = assocFind l k'
  rw [if_neg h]

theorem resolveFileImportsLoop_spec {H : Type} (synModule : SynModule)
    (semAst : SemAst H)
    (hdeps : ∀ d ∈ synModule.dependencies, (assocFind semAst.modules d).isSome) :
    ∀ (imports : List (Nat × Span)) (semFile : SemFile H),
      (resolveFileImportsLoop synModule imports semFile semAst ≠ none) ∧
      ((∃ e, resolveFileImportsLoop synModule imports semFile semAst =
          some (.error e)) ↔
        ∃ pr ∈ imports, pr.1 ∉ synModule.dependencies) ∧
      (∀ e, resolveFileImportsLoop synModule imports semFile semAst =
          some (.error e) → e.typ = .importErr) ∧
      (∀ semFile', resolveFileImportsLoop synModule imports semFile semAst =
          some (.ok semFile') →
        (∀ pr ∈ imports,
          assocFind semFile'.imports pr.1 = assocFind semAst.modules pr.1) ∧
        (∀ k, (∀ sp, (k, sp) ∉ imports) →
          assocFind semFile'.imports k = assocFind semFile.imports k)) := by
  intro imports
  induction imports with
  | nil =>
      intro semFile
      refine ⟨by simp [resolveFileImportsLoop], ?_, ?_, ?_⟩
      · simp [resolveFileImportsLoop]
      · intro e he
        simp [resolveFileImportsLoop] at he
      · intro semFile' h
        simp only [resolveFileImportsLoop, Option.some.injEq, Except.ok.injEq] at h
        subst h
        exact ⟨by simp, fun k _ => rfl⟩
  | cons pr rest ih =>
      intro semFile
      obtain ⟨imp, sp⟩ := pr
      by_cases hc : synModule.dependencies.contains imp
      · -- the import is declared: the unwrap succeeds thanks to `hdeps`
        have himp : imp ∈ synModule.dependencies := List.elem_iff.mp hc
        have hsome := hdeps imp himp
        rcases hfind : assocFind semAst.modules imp with _ | handle
        · rw [hfind] at hsome; cases hsome
        · have hstep : resolveFileImportsLoop synModule ((imp, sp) :: rest)
              semFile semAst =
              resolveFileImportsLoop synModule rest
                { semFile with imports := (imp, handle) :: semFile.imports }
                semAst := by
            conv_lhs => unfold resolveFileImportsLoop
            simp only [hc, if_true, hfind]
          obtain ⟨ih1, ih2, ih3, ih4⟩ :=
            ih { semFile with imports := (imp, handle) :: semFile.imports }
          refine ⟨by rw [hstep]; exact ih1, ?_, ?_, ?_⟩
          · rw [hstep]
            constructor
            · intro h
              rcases ih2.mp h with ⟨pr', hpr', hnot⟩
              exact ⟨pr', List.mem_cons_of_mem _ hpr', hnot⟩
            · rintro ⟨pr', hpr', hnot⟩
              rcases List.mem_cons.mp hpr' with hpr' | hpr'
              · subst hpr'
                exact absurd himp hnot
              · exact ih2.mpr ⟨pr', hpr', hnot⟩
          · intro e he
            rw [hstep] at he
            exact ih3 e he
          · intro semFile' h
            rw [hstep] at h
            obtain ⟨hall, hframe⟩ := ih4 semFile' h
            constructor
            · intro pr' hpr'
              rcases List.mem_cons.mp hpr' with hpr' | hpr'
              · subst hpr'
                by_cases hrest : ∃ sp', (imp, sp') ∈ rest
                · rcases hrest with ⟨sp', hsp'⟩
                  exact hall (imp, sp') hsp'
                · push_neg at hrest
                  rw [hframe imp hrest, assocFind_cons_self, hfind]
              · exact hall pr' hpr'
            · intro k hk
              have hkrest : ∀ sp', (k, sp') ∉ rest := fun sp' hmem =>
                hk sp' (List.mem_cons_of_mem _ hmem)
              have hkimp : k ≠ imp := by
                intro hkeq
                exact hk sp (by simp [hkeq])
              rw [hframe k hkrest, assocFind_cons_ne (Ne.symm hkimp)]
      · -- the import is not declared: the loop stops with the Import error
        have hstep : resolveFileImportsLoop synModule ((imp, sp) :: rest)
            semFile semAst =
            some (.error { typ := .importErr, msg := "Importing undeclared module"
                           span := sp }) := by
          unfold resolveFileImportsLoop
          rw [if_neg hc]
        have himp : imp ∉ synModule.dependencies := fun hmem =>
          hc (List.elem_iff.mpr hmem)
        refine ⟨by rw [hstep]; simp, ?_, ?_, ?_⟩
        · rw [hstep]
          exact ⟨fun _ => ⟨(imp, sp), List.mem_cons_self _ _, himp⟩,
                 fun _ => ⟨_, rfl⟩⟩
        · intro e he
          rw [hstep] at he
          simp only [Option.some.injEq, Except.error.injEq] at he
          rw [← he]
        · intro semFile' h
          rw [hstep] at h
          simp at h

/-- C8 (confirmed).  Under the pipeline precondition that the module's
declared dependencies all resolved (`resolve_module_deps` succeeded — pass 2
runs it before the per-file imports, and `resolve_file_imports` `unwrap`s the
module-map lookup on that strength): `resolve_file_imports` fails, with an
`Import`-kind error, **iff** some import id of the file is not among the
module's declared dependencies; and when it succeeds, the file's semantic
imports map holds, for every import id, exactly the shared handle stored for
that id in the top-level semantic module map. -/
theorem C8_import_resolution {H : Type} (synModule : SynModule)
    (imports : List (Nat × Span)) (semFile : SemFile H) (semAst : SemAst H)
    (hdeps : resolveModuleDeps synModule semAst = .ok ()) :
    (resolveFileImports synModule imports semFile semAst ≠ none) ∧
    ((∃ e, resolveFileImports synModule imports semFile semAst =
        some (.error e)) ↔
      ∃ pr ∈ imports, pr.1 ∉ synModule.dependencies) ∧
    (∀ e, resolveFileImports synModule imports semFile semAst =
        some (.error e) → e.typ = .importErr) ∧
    (∀ semFile', resolveFileImports synModule imports semFile semAst =
        some (.ok semFile') →
      ∀ pr ∈ imports,
        assocFind semFile'.imports pr.1 = assocFind semAst.modules pr.1) := by
  have hdeps' := resolveModuleDepsLoop_ok hdeps
  obtain ⟨h1, h2, h3, h4⟩ :=
    resolveFileImportsLoop_spec synModule semAst hdeps' imports semFile
  exact ⟨h1, h2, h3, fun semFile' h => (h4 semFile' h).1⟩

/-- Witness for C8 at a concrete instance: handles are `Nat`, one module
(id 5, handle 42), one declared dependency (5), one import of id 5. -/
theorem C8_import_resolution_witness :
    (resolveFileImports { path := 0, dependencies := [5] }
        [(5, Span.pathOnly 1)] ({ imports := [] } : SemFile Nat)
        { entry := 0, modules := [(5, 42)] } ≠ none) ∧
    ((∃ e, resolveFileImports { path := 0, dependencies := [5] }
        [(5, Span.pathOnly 1)] ({ imports := [] } : SemFile Nat)
        { entry := 0, modules := [(5, 42)] } = some (.error e)) ↔
      ∃ pr ∈ [((5 : Nat), Span.pathOnly 1)], pr.1 ∉ [(5 : Nat)]) ∧
    (∀ e, resolveFileImports { path := 0, dependencies := [5] }
        [(5, Span.pathOnly 1)] ({ imports := [] } : SemFile Nat)
        { entry := 0, modules := [(5, 42)] } = some (.error e) →
      e.typ = .importErr) ∧
    (∀ semFile', resolveFileImports { path := 0, dependencies := [5] }
        [(5, Span.pathOnly 1)] ({ imports := [] } : SemFile Nat)
        { entry := 0, modules := [(5, 42)] } = some (.ok semFile') →
      ∀ pr ∈ [((5 : Nat), Span.pathOnly 1)],
        assocFind semFile'.imports pr.1 =
          assocFind ({ entry := 0, modules := [(5, 42)] } : SemAst Nat).modules pr.1) :=
  C8_import_resolution { path := 0, dependencies := [5] } [(5, Span.pathOnly 1)]
    { imports := [] } { entry := 0, modules := [(5, 42)] } rfl

end Compiler
